import Mathlib

/-!
Verification of the `vite-plugin-warpdrive` asset-upload plugin
(`src/packages/vite-plugin-warpdrive/dist/index.mjs`) against its
natural-language specification.

The plugin is embedded shallowly:
* pure string helpers (`normalizePfx`, `normalizeKey`, `joinUrl`,
  `sanitizeEtag`) are translated directly;
* the inclusion filter (`shouldHandle`) and URL rewriter
  (`renderBuiltUrl`) are pure functions over the plugin options and the
  tracking map (a JS `Map` modelled as an insertion-ordered association
  list);
* the stateful lifecycle hooks (`generateBundle`, `closeBundle`) are
  interpreters producing an explicit trace of effects (`Ev`) together
  with the promise outcome (resolved / rejected), parameterised by an
  oracle describing how the provider and the filesystem respond to each
  call;
* the concurrent upload phase (`Promise.all` over per-asset async
  tasks) is additionally given a small scheduling model: each task is
  its (finite) list of atomic steps, a schedule interleaves them, and
  the combined promise rejects at the step where the first failing
  task settles.

JS naming that Lean refuses or that the token conventions of this
development discourage is adapted as follows: the option `include`
becomes `includeList`, `prefix` becomes `pfxOpt` / `pfx`, and the
provider capability `cleanPrefix` becomes `cleanPfx`.
-/

/-- `s.replace(/^\/*/, "")`-style stripping: drop the leading run of
the character `c`. -/
def dropLeadingChar (c : Char) (s : String) : String :=
  String.mk (s.toList.dropWhile (fun x => x == c))

/-- Drop the trailing run of the character `c` (first match of a
`/c*$/`-style pattern is exactly the maximal trailing run). -/
def dropTrailingChar (c : Char) (s : String) : String :=
  String.mk ((s.toList.reverse.dropWhile (fun x => x == c)).reverse)

/-- `normalizePrefix` from the source (both copies are identical):
`prefix.replace(/^\/*"/, "").replace(/\/*$/, "")` — strip leading and
trailing slashes. -/
def normalizePfx (s : String) : String :=
  dropTrailingChar '/' (dropLeadingChar '/' s)

/-- `normalizeKey`: `key.replace(/^\/*/, "")`. -/
def normalizeKey (key : String) : String :=
  dropLeadingChar '/' key

/-- `joinUrl`: `` `${base.replace(/\/+$/, "")}/${path.replace(/^\/+/, "")}` ``. -/
def joinUrl (base path : String) : String :=
  dropTrailingChar '/' base ++ "/" ++ dropLeadingChar '/' path

/-- `sanitizeEtag`: `etag.replace(/^"+|"+$/g, "")` — strip the leading
and the trailing run of double quotes. -/
def sanitizeEtag (etag : String) : String :=
  dropTrailingChar '"' (dropLeadingChar '"' etag)

/-- Host context passed by Vite to `renderBuiltUrl` (`ctx.hostId`,
`ctx.hostType`); carried through opaquely. -/
structure HostCtx where
  hostId : Option String
  hostType : Option String
deriving DecidableEq, Repr

/-- One entry of the `include` option: either a `RegExp` (abstracted by
its `test` function on the file name) or a predicate function. -/
inductive Matcher where
  | regex (test : String → Bool)
  | fn (f : String → Bool)

/-- `matcher instanceof RegExp ? matcher.test(filename) : matcher(filename)`. -/
def Matcher.matches : Matcher → String → Bool
  | .regex t, filename => t filename
  | .fn f, filename => f filename

/-- Behaviour oracle for the user-supplied upload provider, as consumed
by the orchestrator.  Capability presence (`typeof p.x === "function"`)
is a `Bool`; each remote call is a pure function from its arguments to
its outcome (`Bool` = the returned promise resolves; `Except Unit _` for
calls whose result is inspected and which may reject). -/
structure Provider where
  getPublicUrl : String → String
  hasCleanPfx : Bool
  /-- Does `cleanPrefix(prefix)` resolve? -/
  cleanOk : String → Bool
  hasShouldSkip : Bool
  /-- Outcome of `shouldSkipUpload(localPath, key)`. -/
  skipRes : String → String → Except Unit Bool
  /-- Does `upload(localPath, key, contentType)` resolve? -/
  uploadOk : String → String → Option String → Bool

/-- The plugin options object (`WarpDrivePlugin(options)`), with the JS
optional fields made explicit.  `includeList` is `options.include`,
`pfxOpt` is `options.prefix`, `del` is `options.delete`. -/
structure WarpOptions where
  includeList : List Matcher
  includeBy : Option (String → HostCtx → Bool)
  provider : Option Provider
  pfxOpt : Option String
  del : Option Bool
  clean : Option Bool
  skipNotModified : Option Bool
  dryRun : Option Bool
  manifest : Bool
  contentTypeBy : Option (String → Option String)

/-- Line 71: `normalizePrefix(options.prefix ?? "remote-assets")`. -/
def WarpOptions.pfx (o : WarpOptions) : String :=
  normalizePfx (o.pfxOpt.getD "remote-assets")

/-- Line 73: `options.delete !== false`. -/
def WarpOptions.shouldDeleteLocalAsset (o : WarpOptions) : Bool :=
  o.del != some false

/-- Line 74: `options.clean !== false`. -/
def WarpOptions.shouldCleanRemote (o : WarpOptions) : Bool :=
  o.clean != some false

/-- Line 75: `options.skipNotModified !== false`. -/
def WarpOptions.shouldSkipNotModified (o : WarpOptions) : Bool :=
  o.skipNotModified != some false

/-- Line 76: `options.dryRun === true`. -/
def WarpOptions.isDryRun (o : WarpOptions) : Bool :=
  o.dryRun == some true

/-- Metadata recorded in the tracking map by `renderBuiltUrl`. -/
structure TrackedMeta where
  key : String
  url : String
  hostId : Option String
  hostType : Option String
deriving DecidableEq, Repr

/-- JS `Map.set` on an insertion-ordered association list: overwrite in
place when the key is present, append otherwise. -/
def mapSet {α : Type} (m : List (String × α)) (k : String) (v : α) :
    List (String × α) :=
  if m.any (fun p => p.1 == k) then
    m.map (fun p => if p.1 == k then (k, v) else p)
  else
    m ++ [(k, v)]

/-- JS `Map.get`. -/
def mapGet {α : Type} (m : List (String × α)) (k : String) : Option α :=
  (m.find? (fun p => p.1 == k)).map (·.2)

/-- The tracking map (`const tracked = new Map()`). -/
abbrev TrackedMap := List (String × TrackedMeta)

/-- Lines 82-89, the inclusion filter `shouldHandle`. -/
def shouldHandle (o : WarpOptions) (filename : String) (ctx : HostCtx) : Bool :=
  if !(o.includeList.any (fun m => m.matches filename)) then
    false
  else
    match o.includeBy with
    | some f => f filename ctx
    | none => true

/-- Lines 90-102, `renderBuiltUrl`: returns the replacement URL (or
`none` to leave the reference untouched) together with the updated
tracking map. -/
def renderBuiltUrl (o : WarpOptions) (tracked : TrackedMap)
    (filename : String) (ctx : HostCtx) : Option String × TrackedMap :=
  if !shouldHandle o filename ctx then
    (none, tracked)
  else
    match o.provider with
    | none => (none, tracked)
    | some p =>
      let key := if o.pfx != "" then o.pfx ++ "/" ++ filename else filename
      let url := p.getPublicUrl key
      (some url, mapSet tracked filename ⟨key, url, ctx.hostId, ctx.hostType⟩)

/-- The `source` of a bundle output of type `"asset"`: a JS string, a
binary buffer (only its byte length matters to the plugin), or absent. -/
inductive AssetSource where
  | str (s : String)
  | buf (byteLength : Nat)
  | undef
deriving DecidableEq, Repr

/-- One output of the Rollup bundle: an asset or a chunk. -/
inductive BundleOutput where
  | asset (source : AssetSource)
  | chunk
deriving DecidableEq, Repr

/-- Lines 213-216, `getAssetSize`: `Buffer.byteLength(source)` for a
string (its UTF-8 byte count), `source?.byteLength ?? 0` otherwise. -/
def getAssetSize : AssetSource → Nat
  | .str s => s.utf8ByteSize
  | .buf n => n
  | .undef => 0

/-- One element of the `manifest` array (lines 132-139). -/
structure ManifestEntry where
  fileName : String
  url : String
  key : String
  hostId : Option String
  hostType : Option String
  size : Nat
deriving DecidableEq, Repr

/-- One element of the `pendingUploads` array (lines 140-145). -/
structure PendingUpload where
  fileName : String
  key : String
  localPath : String
  contentType : Option String
deriving DecidableEq, Repr

/-- Result of the `generateBundle` hook: the accumulated manifest and
pending-upload arrays, and the manifest asset emitted via `emitFile`
(when the `manifest` option is set and at least one entry exists). -/
structure GenResult where
  manifest : List ManifestEntry
  pendingUploads : List PendingUpload
  emitted : Option (List ManifestEntry)
deriving DecidableEq, Repr

/-- Loop body of `generateBundle` (lines 123-147) over one bundle
entry: chunks and untracked file names are skipped, tracked assets are
appended to both arrays.  `localPath = join(outDir, fileName)`;
`contentType = await options.contentTypeBy?.(fileName)`. -/
def genStep (o : WarpOptions) (tracked : TrackedMap) (outDir : String)
    (acc : List ManifestEntry × List PendingUpload)
    (e : String × BundleOutput) :
    List ManifestEntry × List PendingUpload :=
  match e.2 with
  | .chunk => acc
  | .asset src =>
    match mapGet tracked e.1 with
    | none => acc
    | some meta =>
      (acc.1 ++ [⟨e.1, meta.url, meta.key, meta.hostId, meta.hostType,
                  getAssetSize src⟩],
       acc.2 ++ [⟨e.1, meta.key, outDir ++ "/" ++ e.1,
                  o.contentTypeBy.bind (fun f => f e.1)⟩])

/-- Lines 113-152, the `generateBundle` hook.  `hasConfig` is whether
`configResolved` ran (`resolvedConfig` is set); without it, or without
a provider, the hook warns and returns with nothing scheduled. -/
def generateBundle (hasConfig : Bool) (o : WarpOptions)
    (tracked : TrackedMap) (outDir : String)
    (bundle : List (String × BundleOutput)) : GenResult :=
  if !hasConfig then ⟨[], [], none⟩
  else
    match o.provider with
    | none => ⟨[], [], none⟩
    | some _ =>
      let mp := bundle.foldl (genStep o tracked outDir) ([], [])
      ⟨mp.1, mp.2, if o.manifest && !mp.1.isEmpty then some mp.1 else none⟩

/-- Observable events of the `closeBundle` phase: provider calls
(`callCleanPfx`, `callSkipCheck`, `callUpload`), filesystem calls
(`callRm`), and the log lines, one constructor per logging site. -/
inductive Ev where
  | warnNoConfig
  | warnNoProvider
  | infoDryRun (n : Nat)
  | warnCleanNoPfx
  | infoCleaning (p : String)
  | callCleanPfx (p : String)
  | infoCleaned (p : String)
  | warnCleanUnsupported
  | infoUploading (n : Nat)
  | callSkipCheck (localPath key : String)
  | infoSkippedUpload (fileName key : String)
  | callRm (path : String)
  | infoDeletedLocal (fileName : String)
  | warnRmFailed (fileName : String)
  | warnSkipCheckErr (fileName : String)
  | callUpload (localPath key : String) (contentType : Option String)
  | errUploadFailed (fileName key : String)
  | infoUploadComplete
deriving DecidableEq, Repr

/-- The `try { await rm(localPath, { force: true }); ... } catch ...`
block (lines 181-186 and 198-203): the `rm` call, then the success log
or the non-fatal warning.  `rmOk` is the filesystem oracle. -/
def deleteLocalAsset (rmOk : String → Bool) (fileName localPath : String) :
    List Ev :=
  Ev.callRm localPath ::
    (if rmOk localPath then [Ev.infoDeletedLocal fileName]
     else [Ev.warnRmFailed fileName])

/-- Lines 177-204: the async task pushed into `uploads` for one pending
upload.  Returns the task's step trace and whether its promise
resolves (`false` = it rejects, which happens exactly on the re-thrown
upload failure). -/
def assetTask (o : WarpOptions) (p : Provider) (rmOk : String → Bool)
    (u : PendingUpload) : List Ev × Bool :=
  let skipStep : List Ev × Option Bool :=
    if o.shouldSkipNotModified && p.hasShouldSkip then
      match p.skipRes u.localPath u.key with
      | .error _ =>
        ([Ev.callSkipCheck u.localPath u.key,
          Ev.warnSkipCheckErr u.fileName], none)
      | .ok false => ([Ev.callSkipCheck u.localPath u.key], none)
      | .ok true =>
        (Ev.callSkipCheck u.localPath u.key ::
           Ev.infoSkippedUpload u.fileName u.key ::
           (if o.shouldDeleteLocalAsset then
              deleteLocalAsset rmOk u.fileName u.localPath
            else []),
         some true)
    else ([], none)
  match skipStep with
  | (evs, some r) => (evs, r)
  | (evs, none) =>
    if p.uploadOk u.localPath u.key u.contentType then
      (evs ++ Ev.callUpload u.localPath u.key u.contentType ::
         (if o.shouldDeleteLocalAsset then
            deleteLocalAsset rmOk u.fileName u.localPath
          else []),
       true)
    else
      (evs ++ [Ev.callUpload u.localPath u.key u.contentType,
               Ev.errUploadFailed u.fileName u.key],
       false)

/-- Result of one `closeBundle` invocation: its event trace, whether
the returned promise resolves, and the `cleanedRemote` flag afterwards
(the only plugin state this hook mutates). -/
structure CloseResult where
  events : List Ev
  resolved : Bool
  cleanedRemote : Bool
deriving DecidableEq, Repr

/-- Lines 168-174, the clean step of `closeBundle`: events, whether
this step completes without a rejection, and the `cleanedRemote` flag
afterwards.  The flag is set only after `cleanPrefix` resolved; a
`cleanPrefix` rejection propagates (the `await` at line 171 is not
wrapped in any `try`), leaving the flag unset. -/
def cleanStepFn (o : WarpOptions) (p : Provider) (cleanedRemote : Bool) :
    List Ev × Bool × Bool :=
  if o.shouldCleanRemote && !cleanedRemote then
    if o.pfx == "" then ([Ev.warnCleanNoPfx], true, cleanedRemote)
    else if p.hasCleanPfx then
      if p.cleanOk o.pfx then
        ([Ev.infoCleaning o.pfx, Ev.callCleanPfx o.pfx,
          Ev.infoCleaned o.pfx], true, true)
      else
        ([Ev.infoCleaning o.pfx, Ev.callCleanPfx o.pfx], false,
         cleanedRemote)
    else ([Ev.warnCleanUnsupported], true, cleanedRemote)
  else ([], true, cleanedRemote)

/-- Lines 175-206, the upload phase of `closeBundle`: all per-asset
tasks run to completion (`Promise.all` does not cancel started tasks),
and the phase resolves iff every task resolved.  The trace lists the
tasks' steps in order; which interleaving actually occurs does not
change the set of steps executed (the scheduling model below accounts
for their timing). -/
def uploadPhase (o : WarpOptions) (p : Provider) (rmOk : String → Bool)
    (pending : List PendingUpload) : List Ev × Bool :=
  let tasks := pending.map (assetTask o p rmOk)
  let ok := tasks.all (·.2)
  (Ev.infoUploading pending.length ::
     ((tasks.map (·.1)).flatten ++
      (if ok then [Ev.infoUploadComplete] else [])),
   ok)

/-- Lines 154-207, the `closeBundle` hook.  The guards run in source
order (config, provider, empty `pendingUploads`, dry run); then the
clean step; a clean rejection aborts the hook before any upload,
otherwise the upload phase runs. -/
def closeBundle (hasConfig : Bool) (o : WarpOptions) (rmOk : String → Bool)
    (pending : List PendingUpload) (cleanedRemote : Bool) : CloseResult :=
  if !hasConfig then ⟨[Ev.warnNoConfig], true, cleanedRemote⟩
  else
    match o.provider with
    | none => ⟨[Ev.warnNoProvider], true, cleanedRemote⟩
    | some p =>
      if pending.isEmpty then ⟨[], true, cleanedRemote⟩
      else if o.isDryRun then
        ⟨[Ev.infoDryRun pending.length], true, cleanedRemote⟩
      else
        match cleanStepFn o p cleanedRemote with
        | (evs, false, c) => ⟨evs, false, c⟩
        | (evs, true, c) =>
          let up := uploadPhase o p rmOk pending
          ⟨evs ++ up.1, up.2, c⟩

/-- Configuration of the reference S3 provider (`createS3Provider`),
restricted to the fields the verified operations read. -/
structure S3Options where
  endpoint : String
  publicBaseUrl : Option String
  skipNotModified : Option Bool

/-- Line 18: `options.publicBaseUrl ?? options.endpoint`. -/
def S3Options.baseUrl (o : S3Options) : String :=
  o.publicBaseUrl.getD o.endpoint

/-- Line 19: `options.skipNotModified !== false`. -/
def S3Options.skipFlag (o : S3Options) : Bool :=
  o.skipNotModified != some false

/-- Behaviour oracle for the `s3mini` client and the local filesystem
as used by the S3 provider.  A file's contents are its byte list;
`Except Unit _` marks calls that may reject. -/
structure S3Behavior where
  /-- Outcome of `client.getEtag(key)`: rejection, or the tag
  (`none` = `undefined`). -/
  getEtagRes : String → Except Unit (Option String)
  /-- Outcome of `readFile(localPath)`. -/
  readFileRes : String → Except Unit (List Nat)
  /-- Outcome of `client.listObjects(delimiter, prefix)`: rejection, or
  the listed object keys (`none` = a null result). -/
  listObjectsRes : String → String → Except Unit (Option (List String))
  /-- Does `client.deleteObjects(keys)` resolve? -/
  deleteOk : List String → Bool

/-- JS falsiness of the fetched tag (`if (!etag) return false`):
`undefined`/`null` or the empty string. -/
def etagFalsy : Option String → Bool
  | none => true
  | some s => s == ""

/-- Lines 42-53, `isMd5HashMatched`.  The MD5 primitive
(`createHash("md5").update(data).digest("hex")`) is an external
library call, passed in as `md5hex`.  Everything inside the `try` is
total here because `getEtagRes` already carries the rejection case.
`etag.includes("-")` and the `toLowerCase()` comparison are expressed
over the strings' character lists. -/
def isMd5HashMatched (md5hex : List Nat → String) (beh : S3Behavior)
    (key : String) (data : List Nat) : Bool :=
  match beh.getEtagRes (normalizeKey key) with
  | .error _ => false
  | .ok etag =>
    if etagFalsy etag then false
    else
      let normalizedEtag := sanitizeEtag (etag.getD "")
      if normalizedEtag == "" || normalizedEtag.toList.contains '-' then false
      else normalizedEtag.toList.map Char.toLower ==
        (md5hex data).toList.map Char.toLower

/-- Lines 33-36, the S3 provider's `shouldSkipUpload`.  Note that
`await readFile(localPath)` happens outside `isMd5HashMatched`'s
`try`/`catch`: a local read failure rejects the returned promise. -/
def s3ShouldSkipUpload (skipFlag : Bool) (md5hex : List Nat → String)
    (beh : S3Behavior) (localPath key : String) : Except Unit Bool :=
  if !skipFlag then .ok false
  else
    match beh.readFileRes localPath with
    | .error e => .error e
    | .ok data => .ok (isMd5HashMatched md5hex beh key data)

/-- Remote calls issued by the S3 provider's `cleanPrefix`. -/
inductive S3Ev where
  | listObjects (delim pfx : String)
  | deleteObjects (keys : List String)
deriving DecidableEq, Repr

/-- Lines 25-32, the S3 provider's `cleanPrefix`: trace of client calls
and whether the returned promise resolves.  An empty normalized
argument returns immediately; a null or empty listing returns after
the list call; otherwise all listed keys are deleted in one batch. -/
def s3CleanPfx (beh : S3Behavior) (pfxArg : String) : List S3Ev × Bool :=
  let np := normalizePfx pfxArg
  if np == "" then ([], true)
  else
    match beh.listObjectsRes "/" (np ++ "/") with
    | .error _ => ([S3Ev.listObjects "/" (np ++ "/")], false)
    | .ok objs =>
      match objs with
      | none => ([S3Ev.listObjects "/" (np ++ "/")], true)
      | some keys =>
        if keys.isEmpty then ([S3Ev.listObjects "/" (np ++ "/")], true)
        else ([S3Ev.listObjects "/" (np ++ "/"), S3Ev.deleteObjects keys],
              beh.deleteOk keys)

/-- Line 37-39, the S3 provider's `getPublicUrl`. -/
def s3GetPublicUrl (o : S3Options) (key : String) : String :=
  joinUrl o.baseUrl key

/-!
Scheduling model for the concurrent upload phase.  Each task is its
list of atomic steps; a schedule is a list of task indices, one entry
per executed step, and is valid when it executes every step of every
task (JS promises, once started, run to completion — `Promise.all`
does not cancel them).  After `k` scheduler steps, task `i` has
settled when all of its steps have run; `Promise.all` rejects at the
first point where some failing task has settled.
-/

/-- How many steps of task `i` ran within the first `k` schedule slots. -/
def occUpTo (σ : List Nat) (i k : Nat) : Nat :=
  ((σ.take k).filter (fun j => j == i)).length

/-- Task `i` (with step counts `lens`) has settled after `k` slots. -/
def settledAt (lens σ : List Nat) (i k : Nat) : Bool :=
  occUpTo σ i k == lens.getD i 0

/-- A schedule is valid for step counts `lens` when every entry names a
task and every task's steps are all executed. -/
def validSched (lens σ : List Nat) : Bool :=
  σ.all (fun j => j < lens.length) &&
  (List.range lens.length).all (fun i => σ.count i == lens.getD i 0)

/-- The slot after which the `Promise.all` promise rejects: the first
point where some task in `fails` has settled. -/
def allRejectIdx (lens fails σ : List Nat) : Option Nat :=
  (List.range (σ.length + 1)).find? (fun k => fails.any (fun i => settledAt lens σ i k))

/-- The property claimed of the upload phase: when the combined promise
rejects, every task (not only the failing one) has already settled. -/
def rejectsAfterAllSettled (lens fails σ : List Nat) : Bool :=
  match allRejectIdx lens fails σ with
  | none => true
  | some k => (List.range lens.length).all (fun i => settledAt lens σ i k)

/-- Indices of the tasks whose promise rejects. -/
def failIdxs (tasks : List (List Ev × Bool)) : List Nat :=
  (List.range tasks.length).filter (fun i => !(tasks.getD i ([], true)).2)

/-- Step counts of a task list. -/
def taskLens (tasks : List (List Ev × Bool)) : List Nat :=
  tasks.map (·.1.length)

/-! Association-list lemmas for the JS `Map` model. -/

theorem mapGet_overwrite_self {α : Type} (m : List (String × α)) (k : String)
    (v : α) (h : m.any (fun p => p.1 == k) = true) :
    mapGet (m.map (fun p => if p.1 == k then (k, v) else p)) k = some v := by
  induction m with
  | nil => simp at h
  | cons hd tl ih =>
    by_cases hk : hd.1 = k
    · simp [mapGet, List.find?, hk]
    · have hk' : (hd.1 == k) = false := beq_false_of_ne hk
      simp only [List.any_cons, hk', Bool.false_or] at h
      simpa [mapGet, List.find?, hk'] using ih h

theorem mapGet_append_single_self {α : Type} (m : List (String × α))
    (k : String) (v : α) (h : m.any (fun p => p.1 == k) = false) :
    mapGet (m ++ [(k, v)]) k = some v := by
  induction m with
  | nil => simp [mapGet, List.find?]
  | cons hd tl ih =>
    simp only [List.any_cons, Bool.or_eq_false_iff] at h
    simpa [mapGet, List.find?, h.1] using ih h.2

/-- Setting key `k` makes `k` map to the new value, present or not
("last write wins"). -/
theorem mapGet_mapSet_self {α : Type} (m : List (String × α)) (k : String)
    (v : α) : mapGet (mapSet m k v) k = some v := by
  unfold mapSet
  cases h : m.any (fun p => p.1 == k) with
  | true => simpa [h] using mapGet_overwrite_self m k v h
  | false => simpa [h] using mapGet_append_single_self m k v h

/-- Setting key `k` leaves every other key's binding unchanged. -/
theorem mapGet_mapSet_ne {α : Type} (m : List (String × α)) (k k' : String)
    (v : α) (hne : k' ≠ k) : mapGet (mapSet m k v) k' = mapGet m k' := by
  have hkk' : (k == k') = false := beq_false_of_ne (fun h => hne h.symm)
  unfold mapSet
  cases h : m.any (fun p => p.1 == k) with
  | true =>
    simp only [if_pos rfl]
    clear h
    induction m with
    | nil => simp
    | cons hd tl ih =>
      by_cases hk : hd.1 = k
      · have hne2 : (hd.1 == k') = false :=
          beq_false_of_ne (fun hcon => hne (hcon ▸ hk))
        simp only [mapGet, List.map_cons, List.find?, hk, if_pos,
          beq_self_eq_true, hkk', hne2]
        simpa [mapGet] using ih
      · have hk' : (hd.1 == k) = false := beq_false_of_ne hk
        cases hmatch : (hd.1 == k') with
        | true => simp [mapGet, List.find?, hk', hmatch]
        | false =>
          simp only [mapGet, List.map_cons, List.find?, hk', if_neg,
            Bool.false_eq_true, not_false_iff, hmatch]
          simpa [mapGet] using ih
  | false =>
    simp only [Bool.false_eq_true, if_neg, not_false_iff]
    clear h
    induction m with
    | nil => simp [mapGet, List.find?, hkk']
    | cons hd tl ih =>
      cases hmatch : (hd.1 == k') with
      | true => simp [mapGet, List.find?, hmatch]
      | false =>
        simp only [mapGet, List.cons_append, List.find?, hmatch]
        simpa [mapGet] using ih

/-- Claim C2: for every file name `f` and host context `ctx`, the
inclusion filter returns `true` iff `f` matches at least one configured
matcher and, when `includeBy` is configured, `includeBy f ctx` returns
`true`; with an empty matcher list the filter returns `false` for every
input. -/
theorem C2_shouldHandle_spec (o : WarpOptions) (f : String) (ctx : HostCtx) :
    (shouldHandle o f ctx = true ↔
      (o.includeList.any (fun m => m.matches f) = true ∧
        ∀ g, o.includeBy = some g → g f ctx = true)) ∧
    (o.includeList = [] → shouldHandle o f ctx = false) := by
  constructor
  · unfold shouldHandle
    cases h : o.includeList.any (fun m => m.matches f) with
    | false => simp [h]
    | true =>
      cases hb : o.includeBy with
      | none => simp [h, hb]
      | some g => simp [h, hb]
  · intro h
    simp [shouldHandle, h]

/-- Concrete check of C2: with a one-matcher list accepting
`"app.wasm"` and no `includeBy`, `"app.wasm"` is accepted; with an
empty matcher list everything is rejected. -/
theorem C2_shouldHandle_spec_witness :
    (shouldHandle
      { includeList := [Matcher.fn (fun f => f == "app.wasm")],
        includeBy := none, provider := none, pfxOpt := none, del := none,
        clean := none, skipNotModified := none, dryRun := none,
        manifest := false, contentTypeBy := none } "app.wasm" ⟨none, none⟩
      = true) ∧
    (shouldHandle
      { includeList := [], includeBy := none, provider := none,
        pfxOpt := none, del := none, clean := none, skipNotModified := none,
        dryRun := none, manifest := false, contentTypeBy := none }
      "app.wasm" ⟨none, none⟩ = false) := by
  constructor
  · exact (C2_shouldHandle_spec _ "app.wasm" ⟨none, none⟩).1.mpr
      ⟨by decide, by intro g hg; cases hg⟩
  · exact (C2_shouldHandle_spec _ "app.wasm" ⟨none, none⟩).2 rfl

/-- Claim C3: for a file accepted by the filter with a configured
provider, `renderBuiltUrl` returns `provider.getPublicUrl key` with
`key = pfx ++ "/" ++ f` when the normalized prefix is non-empty and
`key = f` otherwise, and records `{key, url, hostId, hostType}` under
`f` in the tracking map, overwriting any earlier binding of `f` and
leaving every other file name's binding unchanged; if the filter
rejects `f` or no provider is configured, it returns `none` and leaves
the tracking map untouched. -/
theorem C3_renderBuiltUrl_spec (o : WarpOptions) (tracked : TrackedMap)
    (f : String) (ctx : HostCtx) :
    (∀ p, o.provider = some p → shouldHandle o f ctx = true →
      (renderBuiltUrl o tracked f ctx).1 =
        some (p.getPublicUrl (if o.pfx ≠ "" then o.pfx ++ "/" ++ f else f)) ∧
      mapGet (renderBuiltUrl o tracked f ctx).2 f =
        some ⟨if o.pfx ≠ "" then o.pfx ++ "/" ++ f else f,
              p.getPublicUrl (if o.pfx ≠ "" then o.pfx ++ "/" ++ f else f),
              ctx.hostId, ctx.hostType⟩ ∧
      (∀ f', f' ≠ f →
        mapGet (renderBuiltUrl o tracked f ctx).2 f' = mapGet tracked f')) ∧
    (shouldHandle o f ctx = false →
      renderBuiltUrl o tracked f ctx = (none, tracked)) ∧
    (o.provider = none → renderBuiltUrl o tracked f ctx = (none, tracked)) := by
  refine ⟨?_, ?_, ?_⟩
  · intro p hp hacc
    have hif : (if (o.pfx != "") = true then o.pfx ++ "/" ++ f else f)
        = (if o.pfx ≠ "" then o.pfx ++ "/" ++ f else f) := by
      by_cases hpfx : o.pfx = "" <;> simp [hpfx]
    refine ⟨?_, ?_, ?_⟩
    · simp [renderBuiltUrl, hacc, hp, hif]
    · simp only [renderBuiltUrl, hacc, Bool.not_true, Bool.false_eq_true,
        if_neg, not_false_iff, hp, hif]
      exact mapGet_mapSet_self ..
    · intro f' hf'
      simp only [renderBuiltUrl, hacc, Bool.not_true, Bool.false_eq_true,
        if_neg, not_false_iff, hp, hif]
      exact mapGet_mapSet_ne _ _ _ _ hf'
  · intro hrej
    simp [renderBuiltUrl, hrej]
  · intro hp
    unfold renderBuiltUrl
    cases hacc : shouldHandle o f ctx <;> simp [hp]

/-- The reference provider shape used by the concrete witnesses:
public URLs rooted at `https://cdn.example.com`, full capability set,
uploads succeed except for key `"cdn/b.png"`, skip checks report
"not skippable". -/
def sampleProvider : Provider :=
  { getPublicUrl := fun k => joinUrl "https://cdn.example.com" k,
    hasCleanPfx := true,
    cleanOk := fun _ => true,
    hasShouldSkip := true,
    skipRes := fun _ _ => .ok false,
    uploadOk := fun _ k _ => k != "cdn/b.png" }

/-- Plugin options used by the concrete witnesses: one matcher
accepting `"app.wasm"`, configured prefix `"cdn"`, all boolean options
left at their defaults. -/
def sampleOptions : WarpOptions :=
  { includeList := [Matcher.fn (fun f => f == "app.wasm")],
    includeBy := none,
    provider := some sampleProvider,
    pfxOpt := some "cdn",
    del := none, clean := none, skipNotModified := none, dryRun := none,
    manifest := true, contentTypeBy := none }

/-- Concrete check of C3, the spec's own scenario: matcher accepting
`app.wasm`, `prefix "cdn"`, base URL `https://cdn.example.com` — the
rewritten URL is `https://cdn.example.com/cdn/app.wasm` and the
tracking map records key `cdn/app.wasm` under `app.wasm`. -/
theorem C3_renderBuiltUrl_spec_witness :
    (renderBuiltUrl sampleOptions [] "app.wasm" ⟨some "h", some "js"⟩).1 =
      some "https://cdn.example.com/cdn/app.wasm" ∧
    mapGet (renderBuiltUrl sampleOptions [] "app.wasm"
        ⟨some "h", some "js"⟩).2 "app.wasm" =
      some ⟨"cdn/app.wasm", "https://cdn.example.com/cdn/app.wasm",
            some "h", some "js"⟩ := by
  have h := (C3_renderBuiltUrl_spec sampleOptions [] "app.wasm"
    ⟨some "h", some "js"⟩).1 sampleProvider rfl (by decide)
  refine ⟨?_, ?_⟩
  · rw [h.1]; decide
  · rw [h.2.1]; decide

/-! Facts about a single per-asset upload task. -/

set_option linter.unnecessarySeqFocus false

/-- A per-asset task never calls `cleanPrefix`. -/
theorem assetTask_no_cleanPfx_ev (o : WarpOptions) (p : Provider)
    (rmOk : String → Bool) (u : PendingUpload) (s : String) :
    Ev.callCleanPfx s ∉ (assetTask o p rmOk u).1 := by
  unfold assetTask
  cases hss : o.shouldSkipNotModified && p.hasShouldSkip with
  | false =>
    cases hup : p.uploadOk u.localPath u.key u.contentType <;>
    cases hdel : o.shouldDeleteLocalAsset <;>
    cases hrm : rmOk u.localPath <;>
    simp [hup, hdel, hrm, deleteLocalAsset]
  | true =>
    rcases hsr : p.skipRes u.localPath u.key with e | b
    · cases hup : p.uploadOk u.localPath u.key u.contentType <;>
      cases hdel : o.shouldDeleteLocalAsset <;>
      cases hrm : rmOk u.localPath <;>
      simp [hsr, hup, hdel, hrm, deleteLocalAsset]
    · cases b with
      | false =>
        cases hup : p.uploadOk u.localPath u.key u.contentType <;>
        cases hdel : o.shouldDeleteLocalAsset <;>
        cases hrm : rmOk u.localPath <;>
        simp [hsr, hup, hdel, hrm, deleteLocalAsset]
      | true =>
        cases hdel : o.shouldDeleteLocalAsset <;>
        cases hrm : rmOk u.localPath <;>
        simp [hsr, hdel, hrm, deleteLocalAsset]

/-- A per-asset task rejects exactly when its trace records the
re-thrown upload failure. -/
theorem assetTask_rejects_iff (o : WarpOptions) (p : Provider)
    (rmOk : String → Bool) (u : PendingUpload) :
    (assetTask o p rmOk u).2 = false ↔
      Ev.errUploadFailed u.fileName u.key ∈ (assetTask o p rmOk u).1 := by
  unfold assetTask
  cases hss : o.shouldSkipNotModified && p.hasShouldSkip with
  | false =>
    cases hup : p.uploadOk u.localPath u.key u.contentType <;>
    cases hdel : o.shouldDeleteLocalAsset <;>
    cases hrm : rmOk u.localPath <;>
    simp [hup, hdel, hrm, deleteLocalAsset]
  | true =>
    rcases hsr : p.skipRes u.localPath u.key with e | b
    · cases hup : p.uploadOk u.localPath u.key u.contentType <;>
      cases hdel : o.shouldDeleteLocalAsset <;>
      cases hrm : rmOk u.localPath <;>
      simp [hsr, hup, hdel, hrm, deleteLocalAsset]
    · cases b with
      | false =>
        cases hup : p.uploadOk u.localPath u.key u.contentType <;>
        cases hdel : o.shouldDeleteLocalAsset <;>
        cases hrm : rmOk u.localPath <;>
        simp [hsr, hup, hdel, hrm, deleteLocalAsset]
      | true =>
        cases hdel : o.shouldDeleteLocalAsset <;>
        cases hrm : rmOk u.localPath <;>
        simp [hsr, hdel, hrm, deleteLocalAsset]

/-- Whether a per-asset task resolves does not depend on the
filesystem: local deletion failures are never fatal to the task. -/
theorem assetTask_snd_indep_rmOk (o : WarpOptions) (p : Provider)
    (rmOk rmOk' : String → Bool) (u : PendingUpload) :
    (assetTask o p rmOk u).2 = (assetTask o p rmOk' u).2 := by
  unfold assetTask
  cases hss : o.shouldSkipNotModified && p.hasShouldSkip with
  | false =>
    cases hup : p.uploadOk u.localPath u.key u.contentType <;>
    cases hdel : o.shouldDeleteLocalAsset <;>
    simp [hup, hdel, deleteLocalAsset]
  | true =>
    rcases hsr : p.skipRes u.localPath u.key with e | b
    · cases hup : p.uploadOk u.localPath u.key u.contentType <;>
      cases hdel : o.shouldDeleteLocalAsset <;>
      simp [hsr, hup, hdel, deleteLocalAsset]
    · cases b with
      | false =>
        cases hup : p.uploadOk u.localPath u.key u.contentType <;>
        cases hdel : o.shouldDeleteLocalAsset <;>
        simp [hsr, hup, hdel, deleteLocalAsset]
      | true =>
        cases hdel : o.shouldDeleteLocalAsset <;>
        simp [hsr, hdel, deleteLocalAsset]

/-- If the upload for this asset rejects and the upload was actually
attempted, the task never attempts any local deletion. -/
theorem assetTask_upload_rejected_no_rm (o : WarpOptions) (p : Provider)
    (rmOk : String → Bool) (u : PendingUpload)
    (hup : p.uploadOk u.localPath u.key u.contentType = false)
    (hcall : Ev.callUpload u.localPath u.key u.contentType ∈
      (assetTask o p rmOk u).1) :
    ∀ path, Ev.callRm path ∉ (assetTask o p rmOk u).1 := by
  intro path
  revert hcall
  unfold assetTask
  cases hss : o.shouldSkipNotModified && p.hasShouldSkip with
  | false => simp [hup]
  | true =>
    rcases hsr : p.skipRes u.localPath u.key with e | b
    · simp [hsr, hup]
    · cases b with
      | false => simp [hsr, hup]
      | true =>
        cases hdel : o.shouldDeleteLocalAsset <;>
        cases hrm : rmOk u.localPath <;>
        simp [hsr, hdel, hrm, deleteLocalAsset]

/-- A per-asset task is a function of the provider's responses at that
asset's own arguments only: another asset's outcome cannot influence
it (no cross-asset cancellation or interference). -/
theorem assetTask_local (o : WarpOptions) (p p' : Provider)
    (rmOk : String → Bool) (u : PendingUpload)
    (h1 : p.hasShouldSkip = p'.hasShouldSkip)
    (h2 : p.skipRes u.localPath u.key = p'.skipRes u.localPath u.key)
    (h3 : p.uploadOk u.localPath u.key u.contentType =
      p'.uploadOk u.localPath u.key u.contentType) :
    assetTask o p rmOk u = assetTask o p' rmOk u := by
  unfold assetTask
  rw [h1, h2, h3]

/-- The skip path (claim C6): skip detection enabled, supported, and
answering `true` means the upload is never attempted, the local file
is deleted when deletion is enabled, and the task resolves — also when
the deletion itself fails. -/
theorem assetTask_skip_spec (o : WarpOptions) (p : Provider)
    (rmOk : String → Bool) (u : PendingUpload)
    (hflag : o.shouldSkipNotModified = true)
    (hcap : p.hasShouldSkip = true)
    (hsr : p.skipRes u.localPath u.key = .ok true) :
    (∀ lp k ct, Ev.callUpload lp k ct ∉ (assetTask o p rmOk u).1) ∧
    (o.shouldDeleteLocalAsset = true →
      Ev.callRm u.localPath ∈ (assetTask o p rmOk u).1) ∧
    (assetTask o p rmOk u).2 = true := by
  unfold assetTask
  cases hrm : rmOk u.localPath <;>
  cases hdel : o.shouldDeleteLocalAsset <;>
  simp [hflag, hcap, hsr, hdel, hrm, deleteLocalAsset]

/-- A failed skip check is swallowed: the task logs the warning and
proceeds to the upload. -/
theorem assetTask_skipErr_spec (o : WarpOptions) (p : Provider)
    (rmOk : String → Bool) (u : PendingUpload)
    (hflag : o.shouldSkipNotModified = true)
    (hcap : p.hasShouldSkip = true)
    (hsr : p.skipRes u.localPath u.key = .error ()) :
    Ev.warnSkipCheckErr u.fileName ∈ (assetTask o p rmOk u).1 ∧
    Ev.callUpload u.localPath u.key u.contentType ∈
      (assetTask o p rmOk u).1 := by
  unfold assetTask
  cases hup : p.uploadOk u.localPath u.key u.contentType <;>
  cases hdel : o.shouldDeleteLocalAsset <;>
  cases hrm : rmOk u.localPath <;>
  simp [hflag, hcap, hsr, hup, hdel, hrm, deleteLocalAsset]

/-- A provider without `shouldSkipUpload` has skip detection bypassed
silently: no skip check runs and the upload is always attempted. -/
theorem assetTask_noSkipCap_spec (o : WarpOptions) (p : Provider)
    (rmOk : String → Bool) (u : PendingUpload)
    (hcap : p.hasShouldSkip = false) :
    (∀ lp k, Ev.callSkipCheck lp k ∉ (assetTask o p rmOk u).1) ∧
    Ev.callUpload u.localPath u.key u.contentType ∈
      (assetTask o p rmOk u).1 := by
  unfold assetTask
  cases hup : p.uploadOk u.localPath u.key u.contentType <;>
  cases hdel : o.shouldDeleteLocalAsset <;>
  cases hrm : rmOk u.localPath <;>
  simp [hcap, hup, hdel, hrm, deleteLocalAsset]

/-! Facts about the clean step and the upload phase. -/

/-- With the `cleanedRemote` flag already set, the clean step does
nothing. -/
theorem cleanStepFn_done (o : WarpOptions) (p : Provider) :
    cleanStepFn o p true = ([], true, true) := by
  simp [cleanStepFn]

/-- Recognizer for `cleanPrefix` calls in a trace. -/
def isCleanCallEv : Ev → Bool
  | .callCleanPfx _ => true
  | _ => false

/-- How many `cleanPrefix` calls a trace records. -/
def cleanCallCount (l : List Ev) : Nat :=
  (l.filter isCleanCallEv).length

/-- The clean step issues at most one `cleanPrefix` call. -/
theorem cleanStepFn_clean_count_le_one (o : WarpOptions) (p : Provider)
    (c : Bool) :
    cleanCallCount (cleanStepFn o p c).1 ≤ 1 := by
  unfold cleanStepFn
  cases hsc : o.shouldCleanRemote && !c with
  | false => simp [cleanCallCount, isCleanCallEv]
  | true =>
    cases hpe : o.pfx == "" with
    | true => simp [hpe, cleanCallCount, isCleanCallEv]
    | false =>
      cases hcap : p.hasCleanPfx with
      | false => simp [hpe, hcap, cleanCallCount, isCleanCallEv]
      | true =>
        cases hok : p.cleanOk o.pfx <;>
        simp [hpe, hcap, hok, cleanCallCount, isCleanCallEv]

/-- Exactly when the clean step calls `cleanPrefix`. -/
theorem cleanStepFn_mem_clean_iff (o : WarpOptions) (p : Provider)
    (c : Bool) (s : String) :
    Ev.callCleanPfx s ∈ (cleanStepFn o p c).1 ↔
      (s = o.pfx ∧ (o.shouldCleanRemote && !c) = true ∧ o.pfx ≠ "" ∧
        p.hasCleanPfx = true) := by
  unfold cleanStepFn
  cases hsc : o.shouldCleanRemote && !c with
  | false => simp [hsc]
  | true =>
    cases hpe : o.pfx == "" with
    | true =>
      have he : o.pfx = "" := eq_of_beq hpe
      simp [hsc, hpe, he]
    | false =>
      have hne : o.pfx ≠ "" := ne_of_beq_false hpe
      cases hcap : p.hasCleanPfx with
      | false => simp [hsc, hpe, hcap, hne]
      | true =>
        cases hok : p.cleanOk o.pfx <;>
        simp [hsc, hpe, hcap, hok, hne]

/-- The clean step rejects exactly when cleaning is due, a non-empty
prefix and the capability are present, and the `cleanPrefix` call
itself rejects. -/
theorem cleanStepFn_rejects_iff (o : WarpOptions) (p : Provider) (c : Bool) :
    (cleanStepFn o p c).2.1 = false ↔
      ((o.shouldCleanRemote && !c) = true ∧ o.pfx ≠ "" ∧
        p.hasCleanPfx = true ∧ p.cleanOk o.pfx = false) := by
  unfold cleanStepFn
  cases hsc : o.shouldCleanRemote && !c with
  | false => simp [hsc]
  | true =>
    cases hpe : o.pfx == "" with
    | true =>
      have he : o.pfx = "" := eq_of_beq hpe
      simp [hsc, hpe, he]
    | false =>
      have hne : o.pfx ≠ "" := ne_of_beq_false hpe
      cases hcap : p.hasCleanPfx with
      | false => simp [hsc, hpe, hcap, hne]
      | true =>
        cases hok : p.cleanOk o.pfx <;>
        simp [hsc, hpe, hcap, hok, hne]

/-- The `cleanedRemote` flag after the clean step: set beforehand, or
set by a clean that ran and resolved. -/
theorem cleanStepFn_cleaned_iff (o : WarpOptions) (p : Provider) (c : Bool) :
    (cleanStepFn o p c).2.2 = true ↔
      (c = true ∨ ((o.shouldCleanRemote && !c) = true ∧ o.pfx ≠ "" ∧
        p.hasCleanPfx = true ∧ p.cleanOk o.pfx = true)) := by
  unfold cleanStepFn
  cases hsc : o.shouldCleanRemote && !c with
  | false =>
    cases c with
    | false => simp [hsc]
    | true => simp [hsc]
  | true =>
    have hc : c = false := by
      cases c with
      | false => rfl
      | true => simp at hsc
    subst hc
    cases hpe : o.pfx == "" with
    | true =>
      have he : o.pfx = "" := eq_of_beq hpe
      simp [hsc, hpe, he]
    | false =>
      have hne : o.pfx ≠ "" := ne_of_beq_false hpe
      cases hcap : p.hasCleanPfx with
      | false => simp [hsc, hpe, hcap, hne]
      | true =>
        cases hok : p.cleanOk o.pfx <;>
        simp [hsc, hpe, hcap, hok, hne]

/-- When cleaning is due but the configured prefix normalizes to
empty, the clean step only warns (anti-foot-gun refusal). -/
theorem cleanStepFn_emptyPfx (o : WarpOptions) (p : Provider) (c : Bool)
    (hsc : (o.shouldCleanRemote && !c) = true) (hpe : o.pfx = "") :
    cleanStepFn o p c = ([Ev.warnCleanNoPfx], true, c) := by
  unfold cleanStepFn
  simp [hsc, hpe]

/-- When cleaning is due but the provider lacks `cleanPrefix`, the
clean step only warns. -/
theorem cleanStepFn_noCap (o : WarpOptions) (p : Provider) (c : Bool)
    (hsc : (o.shouldCleanRemote && !c) = true) (hpe : o.pfx ≠ "")
    (hcap : p.hasCleanPfx = false) :
    cleanStepFn o p c = ([Ev.warnCleanUnsupported], true, c) := by
  unfold cleanStepFn
  have hpe' : (o.pfx == "") = false := beq_false_of_ne hpe
  simp [hsc, hpe', hcap]

/-- The clean step performs no upload, no skip check, no local
deletion, and no upload failure. -/
theorem cleanStepFn_no_task_evs (o : WarpOptions) (p : Provider) (c : Bool) :
    (∀ lp k ct, Ev.callUpload lp k ct ∉ (cleanStepFn o p c).1) ∧
    (∀ lp k, Ev.callSkipCheck lp k ∉ (cleanStepFn o p c).1) ∧
    (∀ path, Ev.callRm path ∉ (cleanStepFn o p c).1) ∧
    (∀ fn k, Ev.errUploadFailed fn k ∉ (cleanStepFn o p c).1) := by
  unfold cleanStepFn
  cases hsc : o.shouldCleanRemote && !c with
  | false => simp [hsc]
  | true =>
    cases hpe : o.pfx == "" with
    | true => simp [hsc, hpe]
    | false =>
      cases hcap : p.hasCleanPfx with
      | false => simp [hsc, hpe, hcap]
      | true =>
        cases hok : p.cleanOk o.pfx <;>
        simp [hsc, hpe, hcap, hok]

/-- The upload phase rejects exactly when some asset's task rejects. -/
theorem uploadPhase_rejects_iff (o : WarpOptions) (p : Provider)
    (rmOk : String → Bool) (pending : List PendingUpload) :
    (uploadPhase o p rmOk pending).2 = false ↔
      ∃ u ∈ pending, (assetTask o p rmOk u).2 = false := by
  simp [uploadPhase, List.all_map, List.all_eq_false, Function.comp]

/-- Membership in the upload-phase trace: the banner, some task's own
step, or the completion log. -/
theorem uploadPhase_mem_iff (o : WarpOptions) (p : Provider)
    (rmOk : String → Bool) (pending : List PendingUpload) (e : Ev) :
    e ∈ (uploadPhase o p rmOk pending).1 ↔
      (e = Ev.infoUploading pending.length ∨
       (∃ u ∈ pending, e ∈ (assetTask o p rmOk u).1) ∨
       ((uploadPhase o p rmOk pending).2 = true ∧
         e = Ev.infoUploadComplete)) := by
  simp only [uploadPhase, List.mem_cons, List.mem_append, List.mem_flatten,
    List.mem_map]
  constructor
  · rintro (h | ⟨l, ⟨⟨t, ht, rfl⟩, hel⟩⟩ | h)
    · exact Or.inl h
    · rcases ht with ⟨u, hu, rfl⟩
      exact Or.inr (Or.inl ⟨u, hu, hel⟩)
    · cases hall : (pending.map (assetTask o p rmOk)).all (·.2) with
      | false => simp [hall] at h
      | true =>
        simp [hall] at h
        exact Or.inr (Or.inr ⟨rfl, h⟩)
  · rintro (h | ⟨u, hu, hel⟩ | ⟨hok, rfl⟩)
    · exact Or.inl h
    · exact Or.inr (Or.inl ⟨(assetTask o p rmOk u).1,
        ⟨assetTask o p rmOk u, ⟨u, hu, rfl⟩, rfl⟩, hel⟩)
    · have hall : (pending.map (assetTask o p rmOk)).all (·.2) = true := hok
      simp [hall]

/-- Reduction of `closeBundle` on the main path when the clean step
rejects. -/
theorem closeBundle_cleanFail (o : WarpOptions) (p : Provider)
    (rmOk : String → Bool) (pending : List PendingUpload) (c c' : Bool)
    (evs : List Ev)
    (hp : o.provider = some p) (hpend : pending.isEmpty = false)
    (hdry : o.isDryRun = false)
    (hclean : cleanStepFn o p c = (evs, false, c')) :
    closeBundle true o rmOk pending c = ⟨evs, false, c'⟩ := by
  unfold closeBundle
  simp [hp, hpend, hdry, hclean]

/-- Reduction of `closeBundle` on the main path when the clean step
completes. -/
theorem closeBundle_cleanPass (o : WarpOptions) (p : Provider)
    (rmOk : String → Bool) (pending : List PendingUpload) (c c' : Bool)
    (evs : List Ev)
    (hp : o.provider = some p) (hpend : pending.isEmpty = false)
    (hdry : o.isDryRun = false)
    (hclean : cleanStepFn o p c = (evs, true, c')) :
    closeBundle true o rmOk pending c =
      ⟨evs ++ (uploadPhase o p rmOk pending).1,
       (uploadPhase o p rmOk pending).2, c'⟩ := by
  unfold closeBundle
  simp [hp, hpend, hdry, hclean]

/-- A pending upload used by the concrete witnesses. -/
def samplePu : PendingUpload :=
  ⟨"app.wasm", "cdn/app.wasm", "/out/app.wasm", none⟩

/-- Claim C5: with `dryRun` enabled, `closeBundle` calls neither
`cleanPrefix` nor `upload` and deletes no local file, whatever the
`clean`, `delete` and `skipNotModified` options are. -/
theorem C5_dryRun_no_side_effects (hasConfig : Bool) (o : WarpOptions)
    (rmOk : String → Bool) (pending : List PendingUpload) (c : Bool)
    (hdry : o.isDryRun = true) :
    (∀ s, Ev.callCleanPfx s ∉ (closeBundle hasConfig o rmOk pending c).events) ∧
    (∀ lp k ct,
      Ev.callUpload lp k ct ∉ (closeBundle hasConfig o rmOk pending c).events) ∧
    (∀ path,
      Ev.callRm path ∉ (closeBundle hasConfig o rmOk pending c).events) := by
  unfold closeBundle
  cases hasConfig with
  | false => simp
  | true =>
    cases hprov : o.provider with
    | none => simp [hprov]
    | some p =>
      cases hpend : pending.isEmpty with
      | true => simp [hprov, hpend]
      | false => simp [hprov, hpend, hdry]

/-- Concrete check of C5: a dry run over one pending asset with all
side-effecting options at their defaults performs no provider call and
no deletion. -/
theorem C5_dryRun_no_side_effects_witness :
    Ev.callCleanPfx "cdn" ∉
      (closeBundle true { sampleOptions with dryRun := some true }
        (fun _ => true) [samplePu] false).events ∧
    Ev.callUpload "/out/app.wasm" "cdn/app.wasm" none ∉
      (closeBundle true { sampleOptions with dryRun := some true }
        (fun _ => true) [samplePu] false).events ∧
    Ev.callRm "/out/app.wasm" ∉
      (closeBundle true { sampleOptions with dryRun := some true }
        (fun _ => true) [samplePu] false).events := by
  have h := C5_dryRun_no_side_effects true
    { sampleOptions with dryRun := some true } (fun _ => true) [samplePu]
    false rfl
  exact ⟨h.1 "cdn", h.2.1 "/out/app.wasm" "cdn/app.wasm" none,
    h.2.2 "/out/app.wasm"⟩

/-- Claim C6: with `skipNotModified` enabled, a provider supplying
`shouldSkipUpload`, and a skip check resolving `true` for asset `A`,
the task for `A` never calls `upload`, still deletes the local file
when the `delete` option is on, and resolves even when that deletion
fails (deletion failure is only logged). -/
theorem C6_skip_spec (o : WarpOptions) (p : Provider) (rmOk : String → Bool)
    (u : PendingUpload)
    (hflag : o.shouldSkipNotModified = true)
    (hcap : p.hasShouldSkip = true)
    (hsr : p.skipRes u.localPath u.key = .ok true) :
    (∀ lp k ct, Ev.callUpload lp k ct ∉ (assetTask o p rmOk u).1) ∧
    (o.shouldDeleteLocalAsset = true →
      Ev.callRm u.localPath ∈ (assetTask o p rmOk u).1) ∧
    (assetTask o p rmOk u).2 = true :=
  assetTask_skip_spec o p rmOk u hflag hcap hsr

/-- Concrete check of C6: a provider whose skip check answers `true`
for the sample asset, with a failing local deletion — no upload call,
the deletion is attempted, and the task still resolves. -/
theorem C6_skip_spec_witness :
    (Ev.callUpload "/out/app.wasm" "cdn/app.wasm" none ∉
      (assetTask sampleOptions
        { sampleProvider with skipRes := fun _ _ => .ok true }
        (fun _ => false) samplePu).1) ∧
    (Ev.callRm "/out/app.wasm" ∈
      (assetTask sampleOptions
        { sampleProvider with skipRes := fun _ _ => .ok true }
        (fun _ => false) samplePu).1) ∧
    (assetTask sampleOptions
      { sampleProvider with skipRes := fun _ _ => .ok true }
      (fun _ => false) samplePu).2 = true := by
  have h := C6_skip_spec sampleOptions
    { sampleProvider with skipRes := fun _ _ => .ok true }
    (fun _ => false) samplePu rfl rfl rfl
  exact ⟨h.1 "/out/app.wasm" "cdn/app.wasm" none, h.2.1 rfl, h.2.2⟩

/-- Claim C9: with cleaning enabled and a configured prefix that
normalizes to empty, the orchestrator skips the clean step with a
warning and issues no `cleanPrefix` call; the S3 provider's
`cleanPrefix` likewise returns without listing or deleting when its
argument normalizes to empty. -/
theorem C9_emptyPfx_spec :
    (∀ (o : WarpOptions) (p : Provider) (rmOk : String → Bool)
        (pending : List PendingUpload) (c : Bool),
      o.provider = some p → pending.isEmpty = false → o.isDryRun = false →
      (o.shouldCleanRemote && !c) = true → o.pfx = "" →
      Ev.warnCleanNoPfx ∈ (closeBundle true o rmOk pending c).events ∧
      (∀ s, Ev.callCleanPfx s ∉ (closeBundle true o rmOk pending c).events)) ∧
    (∀ (beh : S3Behavior) (parg : String), normalizePfx parg = "" →
      s3CleanPfx beh parg = ([], true)) := by
  constructor
  · intro o p rmOk pending c hp hpend hdry hsc hpe
    have hclean := cleanStepFn_emptyPfx o p c hsc hpe
    have heq := closeBundle_cleanPass o p rmOk pending c c
      [Ev.warnCleanNoPfx] hp hpend hdry hclean
    rw [heq]
    constructor
    · simp
    · intro s
      simp only [List.mem_append, List.mem_singleton]
      rintro (h | h)
      · cases h
      · rcases (uploadPhase_mem_iff o p rmOk pending _).mp h with
          h' | ⟨u, _, h'⟩ | ⟨_, h'⟩
        · cases h'
        · exact assetTask_no_cleanPfx_ev o p rmOk u s h'
        · cases h'
  · intro beh parg hnp
    simp [s3CleanPfx, hnp]

/-- Concrete check of C9: configured prefix `"///"` (normalizing to
empty) with cleaning enabled — the warning is logged and no
`cleanPrefix` call happens; and the S3 `cleanPrefix` on `"///"` does
nothing. -/
theorem C9_emptyPfx_spec_witness :
    (Ev.warnCleanNoPfx ∈
      (closeBundle true { sampleOptions with pfxOpt := some "///" }
        (fun _ => true) [samplePu] false).events) ∧
    (Ev.callCleanPfx "" ∉
      (closeBundle true { sampleOptions with pfxOpt := some "///" }
        (fun _ => true) [samplePu] false).events) ∧
    s3CleanPfx
      ⟨fun _ => .ok none, fun _ => .ok [], fun _ _ => .ok none, fun _ => true⟩
      "///" = ([], true) := by
  have h := C9_emptyPfx_spec.1 { sampleOptions with pfxOpt := some "///" }
    sampleProvider (fun _ => true) [samplePu] false rfl rfl rfl rfl (by decide)
  exact ⟨h.1, h.2 "",
    C9_emptyPfx_spec.2
      ⟨fun _ => .ok none, fun _ => .ok [], fun _ _ => .ok none, fun _ => true⟩
      "///" (by decide)⟩

/-- Recognizer for `upload` calls in a trace. -/
def isUploadCallEv : Ev → Bool
  | .callUpload _ _ _ => true
  | _ => false

theorem isCleanCallEv_iff (e : Ev) :
    isCleanCallEv e = true ↔ ∃ s, e = Ev.callCleanPfx s := by
  cases e <;> simp [isCleanCallEv]

theorem cleanCallCount_append (a b : List Ev) :
    cleanCallCount (a ++ b) = cleanCallCount a + cleanCallCount b := by
  simp [cleanCallCount, List.filter_append]

theorem cleanCallCount_eq_zero (l : List Ev)
    (h : ∀ e ∈ l, isCleanCallEv e = false) : cleanCallCount l = 0 := by
  simp only [cleanCallCount, List.length_eq_zero, List.filter_eq_nil_iff]
  intro e he
  simp [h e he]

theorem assetTask_no_clean_pred (o : WarpOptions) (p : Provider)
    (rmOk : String → Bool) (u : PendingUpload) :
    ∀ e ∈ (assetTask o p rmOk u).1, isCleanCallEv e = false := by
  intro e he
  cases hval : isCleanCallEv e with
  | false => rfl
  | true =>
    obtain ⟨s, rfl⟩ := (isCleanCallEv_iff e).mp hval
    exact absurd he (assetTask_no_cleanPfx_ev o p rmOk u s)

theorem uploadPhase_no_clean_pred (o : WarpOptions) (p : Provider)
    (rmOk : String → Bool) (pending : List PendingUpload) :
    ∀ e ∈ (uploadPhase o p rmOk pending).1, isCleanCallEv e = false := by
  intro e he
  rcases (uploadPhase_mem_iff o p rmOk pending e).mp he with
    rfl | ⟨u, _, he'⟩ | ⟨_, rfl⟩
  · rfl
  · exact assetTask_no_clean_pred o p rmOk u e he'
  · rfl

theorem cleanStepFn_no_upload_pred (o : WarpOptions) (p : Provider)
    (c : Bool) :
    ∀ e ∈ (cleanStepFn o p c).1, isUploadCallEv e = false := by
  unfold cleanStepFn
  cases hsc : o.shouldCleanRemote && !c with
  | false => simp
  | true =>
    cases hpe : o.pfx == "" with
    | true => simp [isUploadCallEv]
    | false =>
      cases hcap : p.hasCleanPfx with
      | false => simp [isUploadCallEv]
      | true =>
        cases hok : p.cleanOk o.pfx <;>
        simp [hok, isUploadCallEv]

/-- One `closeBundle` invocation issues at most one `cleanPrefix`
call. -/
theorem closeBundle_clean_count_le_one (hasConfig : Bool) (o : WarpOptions)
    (rmOk : String → Bool) (pending : List PendingUpload) (c : Bool) :
    cleanCallCount (closeBundle hasConfig o rmOk pending c).events ≤ 1 := by
  cases hasConfig with
  | false => simp [closeBundle, cleanCallCount, isCleanCallEv]
  | true =>
    cases hprov : o.provider with
    | none => simp [closeBundle, hprov, cleanCallCount, isCleanCallEv]
    | some p =>
      cases hpend : pending.isEmpty with
      | true => simp [closeBundle, hprov, hpend, cleanCallCount]
      | false =>
        cases hdry : o.isDryRun with
        | true =>
          simp [closeBundle, hprov, hpend, hdry, cleanCallCount, isCleanCallEv]
        | false =>
          rcases hclean : cleanStepFn o p c with ⟨evs, ok, c'⟩
          have h1 := cleanStepFn_clean_count_le_one o p c
          rw [hclean] at h1
          cases ok with
          | false =>
            rw [closeBundle_cleanFail o p rmOk pending c c' evs hprov hpend
              hdry hclean]
            simpa using h1
          | true =>
            rw [closeBundle_cleanPass o p rmOk pending c c' evs hprov hpend
              hdry hclean]
            simp only []
            rw [cleanCallCount_append,
              cleanCallCount_eq_zero _ (uploadPhase_no_clean_pred o p rmOk pending)]
            simpa using h1

/-- With the `cleanedRemote` flag already set, an invocation issues no
`cleanPrefix` call at all. -/
theorem closeBundle_cleaned_no_clean (hasConfig : Bool) (o : WarpOptions)
    (rmOk : String → Bool) (pending : List PendingUpload) :
    cleanCallCount (closeBundle hasConfig o rmOk pending true).events = 0 := by
  cases hasConfig with
  | false => simp [closeBundle, cleanCallCount, isCleanCallEv]
  | true =>
    cases hprov : o.provider with
    | none => simp [closeBundle, hprov, cleanCallCount, isCleanCallEv]
    | some p =>
      cases hpend : pending.isEmpty with
      | true => simp [closeBundle, hprov, hpend, cleanCallCount]
      | false =>
        cases hdry : o.isDryRun with
        | true =>
          simp [closeBundle, hprov, hpend, hdry, cleanCallCount, isCleanCallEv]
        | false =>
          rw [closeBundle_cleanPass o p rmOk pending true true []
            hprov hpend hdry (cleanStepFn_done o p)]
          rw [List.nil_append]
          exact cleanCallCount_eq_zero _ (uploadPhase_no_clean_pred o p rmOk pending)

theorem exists_clean_of_count_ne_zero (l : List Ev)
    (h : cleanCallCount l ≠ 0) : ∃ s, Ev.callCleanPfx s ∈ l := by
  by_contra hno
  push_neg at hno
  refine h (cleanCallCount_eq_zero l ?_)
  intro e he
  cases hval : isCleanCallEv e with
  | false => rfl
  | true =>
    obtain ⟨s, rfl⟩ := (isCleanCallEv_iff e).mp hval
    exact absurd he (hno s)

/-- In any `closeBundle` trace, every `cleanPrefix` call precedes
every `upload` call: the trace splits into a proper part with no
upload and a remainder with no clean. -/
theorem closeBundle_clean_before_upload (hasConfig : Bool) (o : WarpOptions)
    (rmOk : String → Bool) (pending : List PendingUpload) (c : Bool) :
    ∃ pre post,
      (closeBundle hasConfig o rmOk pending c).events = pre ++ post ∧
      (∀ e ∈ pre, isUploadCallEv e = false) ∧
      (∀ e ∈ post, isCleanCallEv e = false) := by
  cases hasConfig with
  | false =>
    exact ⟨[Ev.warnNoConfig], [], by simp [closeBundle],
      by simp [isUploadCallEv], by simp⟩
  | true =>
    cases hprov : o.provider with
    | none =>
      exact ⟨[Ev.warnNoProvider], [], by simp [closeBundle, hprov],
        by simp [isUploadCallEv], by simp⟩
    | some p =>
      cases hpend : pending.isEmpty with
      | true =>
        exact ⟨[], [], by simp [closeBundle, hprov, hpend], by simp, by simp⟩
      | false =>
        cases hdry : o.isDryRun with
        | true =>
          exact ⟨[Ev.infoDryRun pending.length], [],
            by simp [closeBundle, hprov, hpend, hdry],
            by simp [isUploadCallEv], by simp⟩
        | false =>
          rcases hclean : cleanStepFn o p c with ⟨evs, ok, c'⟩
          have hpre : ∀ e ∈ evs, isUploadCallEv e = false := by
            have := cleanStepFn_no_upload_pred o p c
            rw [hclean] at this
            exact this
          cases ok with
          | false =>
            refine ⟨evs, [], ?_, hpre, by simp⟩
            rw [closeBundle_cleanFail o p rmOk pending c c' evs hprov hpend
              hdry hclean]
            simp
          | true =>
            refine ⟨evs, (uploadPhase o p rmOk pending).1, ?_, hpre,
              uploadPhase_no_clean_pred o p rmOk pending⟩
            rw [closeBundle_cleanPass o p rmOk pending c c' evs hprov hpend
              hdry hclean]

/-- Provided the provider's `cleanPrefix` resolves, two state-threaded
invocations of `closeBundle` together issue at most one `cleanPrefix`
call: the flag set by the first successful clean guards the second
invocation. -/
theorem closeBundle_twice_clean_once (hasConfig : Bool) (o : WarpOptions)
    (rmOk : String → Bool) (pending : List PendingUpload) (c : Bool)
    (hok : ∀ p, o.provider = some p → p.cleanOk o.pfx = true) :
    cleanCallCount ((closeBundle hasConfig o rmOk pending c).events ++
      (closeBundle hasConfig o rmOk pending
        (closeBundle hasConfig o rmOk pending c).cleanedRemote).events) ≤ 1 := by
  rw [cleanCallCount_append]
  cases hasConfig with
  | false => simp [closeBundle, cleanCallCount, isCleanCallEv]
  | true =>
    cases hprov : o.provider with
    | none => simp [closeBundle, hprov, cleanCallCount, isCleanCallEv]
    | some p =>
      cases hpend : pending.isEmpty with
      | true => simp [closeBundle, hprov, hpend, cleanCallCount]
      | false =>
        cases hdry : o.isDryRun with
        | true =>
          simp [closeBundle, hprov, hpend, hdry, cleanCallCount, isCleanCallEv]
        | false =>
          have hcleanok : p.cleanOk o.pfx = true := hok p hprov
          rcases hclean : cleanStepFn o p c with ⟨evs, ok, c'⟩
          cases ok with
          | false =>
            exfalso
            have hiff := cleanStepFn_rejects_iff o p c
            rw [hclean] at hiff
            have := hiff.mp rfl
            rw [hcleanok] at this
            simp at this
          | true =>
            rw [closeBundle_cleanPass o p rmOk pending c c' evs hprov hpend
              hdry hclean]
            have hup0 : cleanCallCount (uploadPhase o p rmOk pending).1 = 0 :=
              cleanCallCount_eq_zero _ (uploadPhase_no_clean_pred o p rmOk pending)
            simp only [cleanCallCount_append, hup0, Nat.add_zero]
            by_cases hcc : cleanCallCount evs = 0
            · rw [hcc, Nat.zero_add]
              exact closeBundle_clean_count_le_one true o rmOk pending c'
            · obtain ⟨s, hs⟩ := exists_clean_of_count_ne_zero evs hcc
              have hmem := cleanStepFn_mem_clean_iff o p c s
              rw [hclean] at hmem
              obtain ⟨_, hsc', hpne, hcap⟩ := hmem.mp hs
              have hc' : c' = true := by
                have hcl := cleanStepFn_cleaned_iff o p c
                rw [hclean] at hcl
                exact hcl.mpr (Or.inr ⟨hsc', hpne, hcap, hcleanok⟩)
              rw [hc', closeBundle_cleaned_no_clean true o rmOk pending,
                Nat.add_zero]
              have h1 := cleanStepFn_clean_count_le_one o p c
              rw [hclean] at h1
              simpa using h1

/-- Options whose provider's `cleanPrefix` always rejects (used to
refute claim C4 as stated). -/
def badCleanOptions : WarpOptions :=
  { sampleOptions with
    provider := some { sampleProvider with cleanOk := fun _ => false } }

/-- Counterexample to claim C4 as stated: when the `cleanPrefix` call
rejects, the `cleanedRemote` flag is never set (it is assigned only
after the `await` succeeds), so a second invocation of `closeBundle`
issues a second `cleanPrefix` call — remote cleaning is not "at most
once per build" across invocations, and the second invocation does
perform a further remote deletion attempt. -/
theorem C4_counterexample :
    cleanCallCount (closeBundle true badCleanOptions (fun _ => true)
      [samplePu]
      (closeBundle true badCleanOptions (fun _ => true) [samplePu]
        false).cleanedRemote).events = 1 ∧
    cleanCallCount
      ((closeBundle true badCleanOptions (fun _ => true) [samplePu]
          false).events ++
        (closeBundle true badCleanOptions (fun _ => true) [samplePu]
          (closeBundle true badCleanOptions (fun _ => true) [samplePu]
            false).cleanedRemote).events) = 2 ∧
    (closeBundle true badCleanOptions (fun _ => true) [samplePu]
      false).resolved = false := by
  decide

/-- Claim C4 (amended): within one invocation of the close phase,
`cleanPrefix` is called at most once and every `cleanPrefix` call
completes before any `upload` call begins; an invocation entered with
the `cleanedRemote` flag set performs no remote deletion; and provided
the `cleanPrefix` call resolves, two state-threaded invocations
together clean at most once (a *rejected* clean leaves the flag unset,
so a second invocation retries it — the unamended claim fails there). -/
theorem C4_clean_once_spec :
    (∀ (hasConfig : Bool) (o : WarpOptions) (rmOk : String → Bool)
        (pending : List PendingUpload) (c : Bool),
      cleanCallCount (closeBundle hasConfig o rmOk pending c).events ≤ 1) ∧
    (∀ (hasConfig : Bool) (o : WarpOptions) (rmOk : String → Bool)
        (pending : List PendingUpload) (c : Bool),
      ∃ pre post,
        (closeBundle hasConfig o rmOk pending c).events = pre ++ post ∧
        (∀ e ∈ pre, isUploadCallEv e = false) ∧
        (∀ e ∈ post, isCleanCallEv e = false)) ∧
    (∀ (hasConfig : Bool) (o : WarpOptions) (rmOk : String → Bool)
        (pending : List PendingUpload),
      cleanCallCount (closeBundle hasConfig o rmOk pending true).events = 0) ∧
    (∀ (hasConfig : Bool) (o : WarpOptions) (rmOk : String → Bool)
        (pending : List PendingUpload) (c : Bool),
      (∀ p, o.provider = some p → p.cleanOk o.pfx = true) →
      cleanCallCount ((closeBundle hasConfig o rmOk pending c).events ++
        (closeBundle hasConfig o rmOk pending
          (closeBundle hasConfig o rmOk pending c).cleanedRemote).events) ≤ 1) :=
  ⟨closeBundle_clean_count_le_one, closeBundle_clean_before_upload,
    closeBundle_cleaned_no_clean, closeBundle_twice_clean_once⟩

/-- Concrete check of the amended C4: with a resolving `cleanPrefix`,
two successive `closeBundle` invocations clean at most once, and an
invocation entered with the flag set cleans zero times. -/
theorem C4_clean_once_spec_witness :
    cleanCallCount ((closeBundle true sampleOptions (fun _ => true)
        [samplePu] false).events ++
      (closeBundle true sampleOptions (fun _ => true) [samplePu]
        (closeBundle true sampleOptions (fun _ => true) [samplePu]
          false).cleanedRemote).events) ≤ 1 ∧
    cleanCallCount (closeBundle true sampleOptions (fun _ => true)
      [samplePu] true).events = 0 := by
  constructor
  · refine C4_clean_once_spec.2.2.2 true sampleOptions (fun _ => true)
      [samplePu] false ?_
    intro p hp
    have hp' : some sampleProvider = some p := hp
    cases hp'
    rfl
  · exact C4_clean_once_spec.2.2.1 true sampleOptions (fun _ => true)
      [samplePu]

/-- Recognizer for warning log events. -/
def isWarnEv : Ev → Bool
  | .warnNoConfig => true
  | .warnNoProvider => true
  | .warnCleanNoPfx => true
  | .warnCleanUnsupported => true
  | .warnRmFailed _ => true
  | .warnSkipCheckErr _ => true
  | _ => false

/-- Options whose provider lacks `shouldSkipUpload`, with remote
cleaning disabled. -/
def noSkipOptions : WarpOptions :=
  { sampleOptions with
    clean := some false,
    provider := some { sampleProvider with hasShouldSkip := false } }

/-- A second pending upload whose upload rejects under
`sampleProvider`. -/
def puB : PendingUpload := ⟨"b.png", "cdn/b.png", "/out/b.png", none⟩

theorem all_snd_map_indep (o : WarpOptions) (p : Provider)
    (rmOk rmOk' : String → Bool) (pending : List PendingUpload) :
    (pending.map (assetTask o p rmOk)).all (·.2) =
      (pending.map (assetTask o p rmOk')).all (·.2) := by
  induction pending with
  | nil => rfl
  | cons hd tl ih =>
    simp only [List.map_cons, List.all_cons, ih,
      assetTask_snd_indep_rmOk o p rmOk rmOk' hd]

/-- Whether `closeBundle` resolves never depends on the filesystem's
behaviour: local deletion failures cannot fail the phase. -/
theorem closeBundle_resolved_indep_rmOk (hasConfig : Bool) (o : WarpOptions)
    (rmOk rmOk' : String → Bool) (pending : List PendingUpload) (c : Bool) :
    (closeBundle hasConfig o rmOk pending c).resolved =
      (closeBundle hasConfig o rmOk' pending c).resolved := by
  cases hasConfig with
  | false => rfl
  | true =>
    cases hprov : o.provider with
    | none => simp [closeBundle, hprov]
    | some p =>
      cases hpend : pending.isEmpty with
      | true => simp [closeBundle, hprov, hpend]
      | false =>
        cases hdry : o.isDryRun with
        | true => simp [closeBundle, hprov, hpend, hdry]
        | false =>
          rcases hclean : cleanStepFn o p c with ⟨evs, ok, c'⟩
          cases ok with
          | false =>
            rw [closeBundle_cleanFail o p rmOk pending c c' evs hprov hpend
                hdry hclean,
              closeBundle_cleanFail o p rmOk' pending c c' evs hprov hpend
                hdry hclean]
          | true =>
            rw [closeBundle_cleanPass o p rmOk pending c c' evs hprov hpend
                hdry hclean,
              closeBundle_cleanPass o p rmOk' pending c c' evs hprov hpend
                hdry hclean]
            exact all_snd_map_indep o p rmOk rmOk' pending

/-- `closeBundle` rejects exactly when, on the main path, either the
`cleanPrefix` call rejected or some asset's upload was attempted and
rejected. -/
theorem closeBundle_rejects_iff (hasConfig : Bool) (o : WarpOptions)
    (rmOk : String → Bool) (pending : List PendingUpload) (c : Bool) :
    (closeBundle hasConfig o rmOk pending c).resolved = false ↔
      (hasConfig = true ∧ ∃ p, o.provider = some p ∧
        pending.isEmpty = false ∧ o.isDryRun = false ∧
        ((cleanStepFn o p c).2.1 = false ∨
          ∃ u ∈ pending,
            Ev.errUploadFailed u.fileName u.key ∈ (assetTask o p rmOk u).1)) := by
  cases hasConfig with
  | false => simp [closeBundle]
  | true =>
    cases hprov : o.provider with
    | none => simp [closeBundle, hprov]
    | some p =>
      cases hpend : pending.isEmpty with
      | true => simp [closeBundle, hprov, hpend]
      | false =>
        cases hdry : o.isDryRun with
        | true => simp [closeBundle, hprov, hpend, hdry]
        | false =>
          rcases hclean : cleanStepFn o p c with ⟨evs, ok, c'⟩
          cases ok with
          | false =>
            rw [closeBundle_cleanFail o p rmOk pending c c' evs hprov hpend
              hdry hclean]
            constructor
            · intro _
              exact ⟨rfl, p, rfl, rfl, rfl, Or.inl (by rw [hclean])⟩
            · intro _
              rfl
          | true =>
            rw [closeBundle_cleanPass o p rmOk pending c c' evs hprov hpend
              hdry hclean]
            constructor
            · intro h
              obtain ⟨u, hu, hfail⟩ :=
                (uploadPhase_rejects_iff o p rmOk pending).mp h
              exact ⟨rfl, p, rfl, rfl, rfl,
                Or.inr ⟨u, hu, (assetTask_rejects_iff o p rmOk u).mp hfail⟩⟩
            · rintro ⟨-, p', hp', -, -, h | h⟩
              · cases hp'
                rw [hclean] at h
                simp at h
              · obtain ⟨u, hu, hmem⟩ := h
                cases hp'
                exact (uploadPhase_rejects_iff o p rmOk pending).mpr
                  ⟨u, hu, (assetTask_rejects_iff o p rmOk u).mpr hmem⟩

/-- Counterexample to claim C7 as stated, in two parts.  First, upload
rejections are **not** the only fatal condition: with a provider whose
`cleanPrefix` rejects, `closeBundle` rejects although no upload was
even attempted (the `await` of `cleanPrefix` is not guarded by any
`try`).  Second, a provider lacking `shouldSkipUpload` is **not**
"skipped with a warning": the run proceeds with no warning event at
all (the capability test at line 178 falls through silently). -/
theorem C7_counterexample :
    ((closeBundle true badCleanOptions (fun _ => true) [samplePu]
        false).resolved = false ∧
      (closeBundle true badCleanOptions (fun _ => true) [samplePu]
        false).events.all (fun e => !isUploadCallEv e) = true) ∧
    ((closeBundle true noSkipOptions (fun _ => true) [samplePu]
        false).events.all (fun e => !isWarnEv e) = true ∧
      (closeBundle true noSkipOptions (fun _ => true) [samplePu]
        false).resolved = true) := by
  decide

/-- Claim C7 (amended): absence of a resolved config or of a provider
degrades to a logged warning and a no-op; a provider lacking
`cleanPrefix` has the clean step skipped with a warning; a provider
lacking `shouldSkipUpload` has skip detection bypassed silently and
every asset uploaded; an error thrown by the skip check is swallowed
(warned, upload proceeds); deletion failures never affect whether the
phase resolves; and the phase rejects exactly on an upload rejection
or a `cleanPrefix` rejection — the latter being the one fatal
condition the unamended claim omits. -/
theorem C7_failure_semantics_spec :
    (∀ (o : WarpOptions) (rmOk : String → Bool)
        (pending : List PendingUpload) (c : Bool),
      closeBundle false o rmOk pending c = ⟨[Ev.warnNoConfig], true, c⟩) ∧
    (∀ (o : WarpOptions) (rmOk : String → Bool)
        (pending : List PendingUpload) (c : Bool), o.provider = none →
      closeBundle true o rmOk pending c = ⟨[Ev.warnNoProvider], true, c⟩) ∧
    (∀ (o : WarpOptions) (p : Provider) (rmOk : String → Bool)
        (pending : List PendingUpload) (c : Bool),
      o.provider = some p → pending.isEmpty = false → o.isDryRun = false →
      (o.shouldCleanRemote && !c) = true → o.pfx ≠ "" →
      p.hasCleanPfx = false →
      Ev.warnCleanUnsupported ∈ (closeBundle true o rmOk pending c).events ∧
      (∀ s, Ev.callCleanPfx s ∉ (closeBundle true o rmOk pending c).events)) ∧
    (∀ (o : WarpOptions) (p : Provider) (rmOk : String → Bool)
        (u : PendingUpload),
      o.shouldSkipNotModified = true → p.hasShouldSkip = true →
      p.skipRes u.localPath u.key = .error () →
      Ev.warnSkipCheckErr u.fileName ∈ (assetTask o p rmOk u).1 ∧
      Ev.callUpload u.localPath u.key u.contentType ∈ (assetTask o p rmOk u).1) ∧
    (∀ (o : WarpOptions) (p : Provider) (rmOk : String → Bool)
        (u : PendingUpload), p.hasShouldSkip = false →
      (∀ lp k, Ev.callSkipCheck lp k ∉ (assetTask o p rmOk u).1) ∧
      Ev.callUpload u.localPath u.key u.contentType ∈ (assetTask o p rmOk u).1) ∧
    (∀ (hasConfig : Bool) (o : WarpOptions) (rmOk rmOk' : String → Bool)
        (pending : List PendingUpload) (c : Bool),
      (closeBundle hasConfig o rmOk pending c).resolved =
        (closeBundle hasConfig o rmOk' pending c).resolved) ∧
    (∀ (hasConfig : Bool) (o : WarpOptions) (rmOk : String → Bool)
        (pending : List PendingUpload) (c : Bool),
      (closeBundle hasConfig o rmOk pending c).resolved = false ↔
        (hasConfig = true ∧ ∃ p, o.provider = some p ∧
          pending.isEmpty = false ∧ o.isDryRun = false ∧
          ((cleanStepFn o p c).2.1 = false ∨
            ∃ u ∈ pending, Ev.errUploadFailed u.fileName u.key ∈
              (assetTask o p rmOk u).1))) := by
  refine ⟨?_, ?_, ?_, ?_, ?_, closeBundle_resolved_indep_rmOk,
    closeBundle_rejects_iff⟩
  · intro o rmOk pending c
    rfl
  · intro o rmOk pending c hprov
    simp [closeBundle, hprov]
  · intro o p rmOk pending c hprov hpend hdry hsc hpne hcap
    have hclean := cleanStepFn_noCap o p c hsc hpne hcap
    rw [closeBundle_cleanPass o p rmOk pending c c [Ev.warnCleanUnsupported]
      hprov hpend hdry hclean]
    constructor
    · simp
    · intro s
      simp only [List.cons_append, List.nil_append, List.mem_cons]
      rintro (h | h)
      · cases h
      · have := uploadPhase_no_clean_pred o p rmOk pending _ h
        simp [isCleanCallEv] at this
  · intro o p rmOk u hflag hcap hsr
    exact assetTask_skipErr_spec o p rmOk u hflag hcap hsr
  · intro o p rmOk u hcap
    exact assetTask_noSkipCap_spec o p rmOk u hcap

/-- Concrete check of the amended C7: a missing provider warns and
resolves; a failing upload among the pending assets is exactly what
makes the phase reject. -/
theorem C7_failure_semantics_spec_witness :
    closeBundle true
      { sampleOptions with provider := none } (fun _ => true) [samplePu]
      false = ⟨[Ev.warnNoProvider], true, false⟩ ∧
    (closeBundle true sampleOptions (fun _ => true) [samplePu, puB]
      false).resolved = false := by
  constructor
  · exact C7_failure_semantics_spec.2.1
      { sampleOptions with provider := none } (fun _ => true) [samplePu]
      false rfl
  · exact (C7_failure_semantics_spec.2.2.2.2.2.2 true sampleOptions
      (fun _ => true) [samplePu, puB] false).mpr
      ⟨rfl, sampleProvider, rfl, rfl, rfl,
        Or.inr ⟨puB, by decide, by decide⟩⟩

/-! Scheduling facts for the `Promise.all` model. -/

theorem find?_range_min (n : Nat) (p : Nat → Bool) (k : Nat)
    (h : (List.range n).find? p = some k) :
    p k = true ∧ ∀ j < k, p j = false := by
  induction n with
  | zero => simp at h
  | succ m ih =>
    rw [List.range_succ, List.find?_append] at h
    cases hfm : (List.range m).find? p with
    | some k' =>
      rw [hfm] at h
      have hk : k' = k := by
        have : some k' = some k := h
        injection this
      subst hk
      exact ih hfm
    | none =>
      rw [hfm] at h
      have h' : (List.find? p [m]) = some k := h
      cases hpm : p m with
      | false => simp [List.find?, hpm] at h'
      | true =>
        simp only [List.find?, hpm] at h'
        have hk : m = k := by injection h'
        subst hk
        refine ⟨hpm, ?_⟩
        intro j hj
        have := List.find?_eq_none.mp hfm j (List.mem_range.mpr hj)
        simpa using this

theorem occUpTo_full (σ : List Nat) (i : Nat) :
    occUpTo σ i σ.length = σ.count i := by
  unfold occUpTo
  rw [List.take_length, ← List.countP_eq_length_filter]
  rfl

/-- Under a valid schedule, the combined `Promise.all` promise rejects
(at some point) iff some task fails. -/
theorem allRejectIdx_isSome_iff (lens fails σ : List Nat)
    (hval : validSched lens σ = true)
    (hsub : ∀ i ∈ fails, i < lens.length) :
    (allRejectIdx lens fails σ).isSome = true ↔ fails ≠ [] := by
  constructor
  · intro h
    obtain ⟨k, _, hpk⟩ := List.find?_isSome.mp h
    obtain ⟨i, hi, _⟩ := List.any_eq_true.mp hpk
    exact List.ne_nil_of_mem hi
  · intro hne
    obtain ⟨i, hi⟩ := List.exists_mem_of_ne_nil fails hne
    apply List.find?_isSome.mpr
    refine ⟨σ.length, List.mem_range.mpr (Nat.lt_succ_self _), ?_⟩
    apply List.any_eq_true.mpr
    refine ⟨i, hi, ?_⟩
    unfold settledAt
    rw [occUpTo_full]
    unfold validSched at hval
    rw [Bool.and_eq_true] at hval
    exact (List.all_eq_true.mp hval.2) i (List.mem_range.mpr (hsub i hi))

/-- The rejection point of the combined promise is the *first*
scheduler step at which some failing task has settled: the promise may
reject while other tasks are still pending. -/
theorem allRejectIdx_min (lens fails σ : List Nat) (k : Nat)
    (h : allRejectIdx lens fails σ = some k) :
    (fails.any (fun i => settledAt lens σ i k)) = true ∧
    ∀ j < k, (fails.any (fun i => settledAt lens σ i j)) = false :=
  find?_range_min (σ.length + 1) _ k h

theorem failIdxs_ne_nil_iff (tasks : List (List Ev × Bool)) :
    failIdxs tasks ≠ [] ↔ tasks.all (·.2) = false := by
  constructor
  · intro h
    obtain ⟨i, hi⟩ := List.exists_mem_of_ne_nil _ h
    unfold failIdxs at hi
    rw [List.mem_filter] at hi
    obtain ⟨hir, hip⟩ := hi
    have hlt : i < tasks.length := List.mem_range.mp hir
    apply List.all_eq_false.mpr
    refine ⟨tasks[i], List.getElem_mem hlt, ?_⟩
    rw [List.getD_eq_getElem tasks ([], true) hlt] at hip
    simp only [Bool.not_eq_true'] at hip
    simp [hip]
  · intro h
    obtain ⟨x, hx, hx2⟩ := List.all_eq_false.mp h
    obtain ⟨i, hlt, hxi⟩ := List.mem_iff_getElem.mp hx
    apply List.ne_nil_of_mem (a := i)
    unfold failIdxs
    rw [List.mem_filter]
    refine ⟨List.mem_range.mpr hlt, ?_⟩
    rw [List.getD_eq_getElem tasks ([], true) hlt, hxi]
    simpa using hx2

/-- Step counts and failing indices of the actual per-asset tasks. -/
theorem failIdxs_lt_lens (o : WarpOptions) (p : Provider)
    (rmOk : String → Bool) (pending : List PendingUpload) :
    ∀ i ∈ failIdxs (pending.map (assetTask o p rmOk)),
      i < (taskLens (pending.map (assetTask o p rmOk))).length := by
  intro i hi
  unfold failIdxs at hi
  rw [List.mem_filter] at hi
  have := List.mem_range.mp hi.1
  simpa [taskLens] using this

/-- Every step of every per-asset task occurs in the phase trace,
whatever the other tasks' outcomes: `Promise.all` does not cancel
started tasks. -/
theorem closeBundle_task_steps_present (o : WarpOptions) (p : Provider)
    (rmOk : String → Bool) (pending : List PendingUpload) (c : Bool)
    (hprov : o.provider = some p) (hpend : pending.isEmpty = false)
    (hdry : o.isDryRun = false)
    (hcl : (cleanStepFn o p c).2.1 = true) :
    ∀ u ∈ pending, ∀ e ∈ (assetTask o p rmOk u).1,
      e ∈ (closeBundle true o rmOk pending c).events := by
  intro u hu e he
  rcases hclean : cleanStepFn o p c with ⟨evs, ok, c'⟩
  have hok : ok = true := by rw [hclean] at hcl; exact hcl
  subst hok
  rw [closeBundle_cleanPass o p rmOk pending c c' evs hprov hpend hdry hclean]
  simp only [List.mem_append]
  exact Or.inr ((uploadPhase_mem_iff o p rmOk pending e).mpr
    (Or.inr (Or.inl ⟨u, hu, he⟩)))

/-- The tasks of the concrete two-asset scenario: `app.wasm` uploads
fine, `b.png`'s upload rejects. -/
def c1Tasks : List (List Ev × Bool) :=
  [samplePu, puB].map (assetTask sampleOptions sampleProvider (fun _ => true))

/-- A schedule that runs all of `b.png`'s steps first. -/
def c1Sched : List Nat := [1, 1, 1, 0, 0, 0, 0]

/-- Counterexample to claim C1 as stated: `Promise.all` rejects at the
first rejection, not after all tasks settle.  In the two-asset
scenario, under the (valid) schedule that runs the failing task
`b.png` to completion first, the combined promise rejects at step 3
while `app.wasm`'s task has not yet settled — the claim's "rejects
only after all other per-asset operations have settled" is false. -/
theorem C1_counterexample :
    sampleProvider.uploadOk puB.localPath puB.key puB.contentType = false ∧
    validSched (taskLens c1Tasks) c1Sched = true ∧
    failIdxs c1Tasks = [1] ∧
    allRejectIdx (taskLens c1Tasks) (failIdxs c1Tasks) c1Sched = some 3 ∧
    settledAt (taskLens c1Tasks) c1Sched 0 3 = false ∧
    rejectsAfterAllSettled (taskLens c1Tasks) (failIdxs c1Tasks) c1Sched
      = false := by
  decide

/-- Claim C1 (amended): if the upload for asset `B` rejects, `B`'s
task attempts no local deletion; one asset's task is a function of the
provider's responses at that asset alone and runs to completion
regardless of other tasks (no cancellation); the phase rejects iff
some asset's task rejects; and under any valid schedule the combined
promise rejects iff some task fails — at the *first* step where a
failing task settles, which (per the counterexample) can be before the
other tasks have settled. -/
theorem C1_upload_failure_spec :
    (∀ (o : WarpOptions) (p : Provider) (rmOk : String → Bool)
        (u : PendingUpload),
      p.uploadOk u.localPath u.key u.contentType = false →
      Ev.callUpload u.localPath u.key u.contentType ∈ (assetTask o p rmOk u).1 →
      ∀ path, Ev.callRm path ∉ (assetTask o p rmOk u).1) ∧
    (∀ (o : WarpOptions) (p p' : Provider) (rmOk : String → Bool)
        (u : PendingUpload),
      p.hasShouldSkip = p'.hasShouldSkip →
      p.skipRes u.localPath u.key = p'.skipRes u.localPath u.key →
      p.uploadOk u.localPath u.key u.contentType =
        p'.uploadOk u.localPath u.key u.contentType →
      assetTask o p rmOk u = assetTask o p' rmOk u) ∧
    (∀ (o : WarpOptions) (p : Provider) (rmOk : String → Bool)
        (pending : List PendingUpload) (c : Bool),
      o.provider = some p → pending.isEmpty = false → o.isDryRun = false →
      (cleanStepFn o p c).2.1 = true →
      ∀ u ∈ pending, ∀ e ∈ (assetTask o p rmOk u).1,
        e ∈ (closeBundle true o rmOk pending c).events) ∧
    (∀ (o : WarpOptions) (p : Provider) (rmOk : String → Bool)
        (pending : List PendingUpload),
      (uploadPhase o p rmOk pending).2 = false ↔
        ∃ u ∈ pending, (assetTask o p rmOk u).2 = false) ∧
    (∀ (o : WarpOptions) (p : Provider) (rmOk : String → Bool)
        (pending : List PendingUpload) (σ : List Nat),
      validSched (taskLens (pending.map (assetTask o p rmOk))) σ = true →
      ((allRejectIdx (taskLens (pending.map (assetTask o p rmOk)))
          (failIdxs (pending.map (assetTask o p rmOk))) σ).isSome = true ↔
        (uploadPhase o p rmOk pending).2 = false)) ∧
    (∀ (lens fails σ : List Nat) (k : Nat),
      allRejectIdx lens fails σ = some k →
      (fails.any (fun i => settledAt lens σ i k)) = true ∧
      ∀ j < k, (fails.any (fun i => settledAt lens σ i j)) = false) := by
  refine ⟨assetTask_upload_rejected_no_rm, assetTask_local,
    closeBundle_task_steps_present, uploadPhase_rejects_iff, ?_,
    allRejectIdx_min⟩
  intro o p rmOk pending σ hval
  refine (allRejectIdx_isSome_iff _ _ σ hval
    (failIdxs_lt_lens o p rmOk pending)).trans ?_
  exact (failIdxs_ne_nil_iff (pending.map (assetTask o p rmOk))).trans Iff.rfl

/-- Concrete check of the amended C1: `b.png`'s failing task attempts
no deletion, and in the two-asset scenario the combined promise does
reject under the chosen schedule. -/
theorem C1_upload_failure_spec_witness :
    Ev.callRm "/out/b.png" ∉
      (assetTask sampleOptions sampleProvider (fun _ => true) puB).1 ∧
    (allRejectIdx (taskLens c1Tasks) (failIdxs c1Tasks) c1Sched).isSome
      = true := by
  constructor
  · exact C1_upload_failure_spec.1 sampleOptions sampleProvider
      (fun _ => true) puB (by decide) (by decide) "/out/b.png"
  · exact (C1_upload_failure_spec.2.2.2.2.1 sampleOptions sampleProvider
      (fun _ => true) [samplePu, puB] c1Sched (by decide)).mpr (by decide)

/-- Characterization of a successful tag match. -/
theorem isMd5HashMatched_true_iff (md5hex : List Nat → String)
    (beh : S3Behavior) (k : String) (data : List Nat) :
    isMd5HashMatched md5hex beh k data = true ↔
      ∃ e, beh.getEtagRes (normalizeKey k) = .ok (some e) ∧
        sanitizeEtag e ≠ "" ∧ (sanitizeEtag e).toList.contains '-' = false ∧
        (sanitizeEtag e).toList.map Char.toLower =
          (md5hex data).toList.map Char.toLower := by
  unfold isMd5HashMatched
  cases hg : beh.getEtagRes (normalizeKey k) with
  | error err => simp [hg]
  | ok etag =>
    cases etag with
    | none => simp [hg, etagFalsy]
    | some e =>
      by_cases he : e = ""
      · subst he
        simp [hg, etagFalsy, show sanitizeEtag "" = "" from rfl]
      · have he' : (e == "") = false := beq_false_of_ne he
        cases hs0 : sanitizeEtag e == "" with
        | true =>
          have hs0' : sanitizeEtag e = "" := eq_of_beq hs0
          simp [hg, etagFalsy, he', hs0, hs0']
        | false =>
          have hs0' : sanitizeEtag e ≠ "" := ne_of_beq_false hs0
          cases hd : (sanitizeEtag e).toList.contains '-' with
          | true =>
            simp only [etagFalsy, Option.getD_some, he', hs0, hd,
              Bool.false_or, Bool.false_eq_true, if_neg, not_false_iff,
              if_pos]
            constructor
            · intro h
              cases h
            · rintro ⟨e', he'', hne, hcon, -⟩
              have hee : e = e' := Option.some.inj (Except.ok.inj he'')
              subst hee
              rw [hd] at hcon
              cases hcon
          | false => simp [hg, etagFalsy, he', hs0, hd, hs0']

/-- An S3 behaviour whose local file read rejects (the remote tag is
present and well-formed). -/
def c8Beh : S3Behavior :=
  ⟨fun _ => .ok (some "\"abc\""), fun _ => .error (),
   fun _ _ => .ok none, fun _ => true⟩

/-- Counterexample to claim C8 as stated: "any thrown error … yields
false" fails for an error thrown by the local file read.  The `await
readFile(localPath)` at line 35 sits outside `isMd5HashMatched`'s
`try`/`catch`, so `shouldSkipUpload` rejects instead of resolving to
`false`. -/
theorem C8_counterexample :
    s3ShouldSkipUpload true (fun _ => "abc") c8Beh "/out/a.png" "k"
      = .error () ∧
    ∀ b, s3ShouldSkipUpload true (fun _ => "abc") c8Beh "/out/a.png" "k"
      ≠ .ok b := by
  constructor
  · rfl
  · intro b h
    cases h

/-- Claim C8 (amended): with the provider-level `skipNotModified`
option false, `shouldSkipUpload` resolves `false`; when the local read
succeeds, it resolves `true` iff the remote tag exists, sanitizes to a
non-empty string with no `"-"`, and equals the hex MD5 of the local
contents case-insensitively — any remote fetch error, missing tag or
malformed tag resolving `false`; but an error from the local file read
itself *rejects* the promise (the unamended claim said it yields
false). -/
theorem C8_shouldSkipUpload_spec :
    (∀ (opts : S3Options) (md5hex : List Nat → String) (beh : S3Behavior)
        (lp k : String), opts.skipNotModified = some false →
      s3ShouldSkipUpload opts.skipFlag md5hex beh lp k = .ok false) ∧
    (∀ (md5hex : List Nat → String) (beh : S3Behavior) (lp k : String)
        (data : List Nat), beh.readFileRes lp = .ok data →
      (s3ShouldSkipUpload true md5hex beh lp k = .ok true ↔
        ∃ e, beh.getEtagRes (normalizeKey k) = .ok (some e) ∧
          sanitizeEtag e ≠ "" ∧ (sanitizeEtag e).toList.contains '-' = false ∧
          (sanitizeEtag e).toList.map Char.toLower =
            (md5hex data).toList.map Char.toLower)) ∧
    (∀ (md5hex : List Nat → String) (beh : S3Behavior) (lp k : String)
        (data : List Nat), beh.readFileRes lp = .ok data →
      s3ShouldSkipUpload true md5hex beh lp k
        = .ok (isMd5HashMatched md5hex beh k data)) ∧
    (∀ (md5hex : List Nat → String) (beh : S3Behavior) (lp k : String),
      beh.readFileRes lp = .error () →
      s3ShouldSkipUpload true md5hex beh lp k = .error ()) := by
  refine ⟨?_, ?_, ?_, ?_⟩
  · intro opts md5hex beh lp k hopt
    have : opts.skipFlag = false := by
      unfold S3Options.skipFlag
      rw [hopt]
      rfl
    rw [this]
    rfl
  · intro md5hex beh lp k data hread
    unfold s3ShouldSkipUpload
    rw [hread]
    simp only [Bool.not_true, Bool.false_eq_true, if_neg, not_false_iff]
    rw [show ((Except.ok (isMd5HashMatched md5hex beh k data) :
        Except Unit Bool) = .ok true) ↔
        (isMd5HashMatched md5hex beh k data = true) by
      constructor
      · intro h; injection h
      · intro h; rw [h]]
    exact isMd5HashMatched_true_iff md5hex beh k data
  · intro md5hex beh lp k data hread
    unfold s3ShouldSkipUpload
    rw [hread]
    rfl
  · intro md5hex beh lp k hread
    unfold s3ShouldSkipUpload
    rw [hread]
    rfl

/-- Concrete check of the amended C8: a remote tag `"\"abc\""` whose
sanitized form matches the local MD5 case-insensitively makes the
check resolve `true`; with the option disabled it resolves `false`. -/
theorem C8_shouldSkipUpload_spec_witness :
    s3ShouldSkipUpload true (fun _ => "ABC")
      ⟨fun _ => .ok (some "\"abc\""), fun _ => .ok [1, 2], fun _ _ => .ok none,
        fun _ => true⟩ "/out/a.png" "k" = .ok true ∧
    s3ShouldSkipUpload
      (S3Options.skipFlag ⟨"https://e.example", none, some false⟩)
      (fun _ => "ABC") c8Beh "/out/a.png" "k" = .ok false := by
  constructor
  · exact (C8_shouldSkipUpload_spec.2.1 (fun _ => "ABC")
      ⟨fun _ => .ok (some "\"abc\""), fun _ => .ok [1, 2], fun _ _ => .ok none,
        fun _ => true⟩ "/out/a.png" "k" [1, 2] rfl).mpr
      ⟨"\"abc\"", rfl, by decide, by decide, by decide⟩
  · exact C8_shouldSkipUpload_spec.1 ⟨"https://e.example", none, some false⟩
      (fun _ => "ABC") c8Beh "/out/a.png" "k" rfl

/-- The manifest entry `generateBundle` creates for one bundle entry:
`some` exactly for a tracked asset-typed output. -/
def manifestEntryOf (tracked : TrackedMap) (e : String × BundleOutput) :
    Option ManifestEntry :=
  match e.2, mapGet tracked e.1 with
  | .asset src, some meta =>
    some ⟨e.1, meta.url, meta.key, meta.hostId, meta.hostType,
      getAssetSize src⟩
  | _, _ => none

/-- The pending upload `generateBundle` creates for one bundle entry. -/
def pendingOf (o : WarpOptions) (tracked : TrackedMap) (outDir : String)
    (e : String × BundleOutput) : Option PendingUpload :=
  match e.2, mapGet tracked e.1 with
  | .asset _, some meta =>
    some ⟨e.1, meta.key, outDir ++ "/" ++ e.1,
      o.contentTypeBy.bind (fun f => f e.1)⟩
  | _, _ => none

theorem foldl_genStep_eq (o : WarpOptions) (tracked : TrackedMap)
    (outDir : String) (bundle : List (String × BundleOutput)) :
    ∀ acc, bundle.foldl (genStep o tracked outDir) acc =
      (acc.1 ++ bundle.filterMap (manifestEntryOf tracked),
       acc.2 ++ bundle.filterMap (pendingOf o tracked outDir)) := by
  induction bundle with
  | nil => intro acc; simp
  | cons hd tl ih =>
    intro acc
    rw [List.foldl_cons, List.filterMap_cons, List.filterMap_cons]
    cases hout : hd.2 with
    | chunk => simp [genStep, hout, manifestEntryOf, pendingOf, ih]
    | asset src =>
      cases hm : mapGet tracked hd.1 with
      | none => simp [genStep, hout, hm, manifestEntryOf, pendingOf, ih]
      | some meta =>
        simp [genStep, hout, hm, manifestEntryOf, pendingOf, ih]

/-- Claim C10: with a resolved config and a provider, the manifest
entries and pending uploads produced by `generateBundle` are exactly
the bundle entries that are asset-typed *and* present in the tracking
map, in bundle order; consequently every pending upload's file name
occurs in the bundle as an asset and is tracked — a tracked name
absent from the bundle, or emitted as a chunk, yields neither a
manifest entry nor a pending upload (and without a config or provider
nothing is produced at all). -/
theorem C10_generateBundle_spec (o : WarpOptions) (pv : Provider)
    (tracked : TrackedMap) (outDir : String)
    (bundle : List (String × BundleOutput)) (hprov : o.provider = some pv) :
    (generateBundle true o tracked outDir bundle).manifest =
      bundle.filterMap (manifestEntryOf tracked) ∧
    (generateBundle true o tracked outDir bundle).pendingUploads =
      bundle.filterMap (pendingOf o tracked outDir) ∧
    (∀ pu ∈ (generateBundle true o tracked outDir bundle).pendingUploads,
      ∃ src meta, (pu.fileName, BundleOutput.asset src) ∈ bundle ∧
        mapGet tracked pu.fileName = some meta ∧ pu.key = meta.key) ∧
    generateBundle false o tracked outDir bundle = ⟨[], [], none⟩ ∧
    (∀ o' : WarpOptions, o'.provider = none →
      generateBundle true o' tracked outDir bundle = ⟨[], [], none⟩) := by
  have hfold := foldl_genStep_eq o tracked outDir bundle ([], [])
  have hman : (generateBundle true o tracked outDir bundle).manifest =
      bundle.filterMap (manifestEntryOf tracked) := by
    unfold generateBundle
    simp [hprov, hfold]
  have hpend : (generateBundle true o tracked outDir bundle).pendingUploads =
      bundle.filterMap (pendingOf o tracked outDir) := by
    unfold generateBundle
    simp [hprov, hfold]
  refine ⟨hman, hpend, ?_, rfl, ?_⟩
  · intro pu hpu
    rw [hpend] at hpu
    obtain ⟨e, he, hpe⟩ := List.mem_filterMap.mp hpu
    unfold pendingOf at hpe
    rcases hout : e.2 with src | _
    · rcases hm : mapGet tracked e.1 with _ | meta
      · rw [hout, hm] at hpe
        cases hpe
      · rw [hout, hm] at hpe
        have hpu' : pu = ⟨e.1, meta.key, outDir ++ "/" ++ e.1,
            o.contentTypeBy.bind (fun f => f e.1)⟩ := by
          injection hpe with h
          exact h.symm
        subst hpu'
        refine ⟨src, meta, ?_, hm, rfl⟩
        have : (e.1, BundleOutput.asset src) = e := by
          rw [← hout]
        rw [this]
        exact he
    · rw [hout] at hpe
      cases hpe
  · intro o' hnone
    unfold generateBundle
    simp [hnone]

/-- Tracking map and bundle used by the C10 witness: `app.wasm` is
tracked and emitted as an asset, `other.css` is an untracked asset,
`chunk.js` is a chunk. -/
def sampleTracked : TrackedMap :=
  [("app.wasm", ⟨"cdn/app.wasm", "https://cdn.example.com/cdn/app.wasm",
    some "h", some "js"⟩)]

def sampleBundle : List (String × BundleOutput) :=
  [("app.wasm", .asset (.buf 3)), ("other.css", .asset .undef),
   ("chunk.js", .chunk)]

/-- Concrete check of C10: only the tracked asset `app.wasm` yields a
manifest entry and a pending upload; the untracked asset and the chunk
are excluded. -/
theorem C10_generateBundle_spec_witness :
    (generateBundle true sampleOptions sampleTracked "/out"
      sampleBundle).pendingUploads =
      [⟨"app.wasm", "cdn/app.wasm", "/out/app.wasm", none⟩] ∧
    (generateBundle true sampleOptions sampleTracked "/out"
      sampleBundle).manifest =
      [⟨"app.wasm", "https://cdn.example.com/cdn/app.wasm", "cdn/app.wasm",
        some "h", some "js", 3⟩] := by
  have h := C10_generateBundle_spec sampleOptions sampleProvider
    sampleTracked "/out" sampleBundle rfl
  refine ⟨?_, ?_⟩
  · rw [h.2.1]
    decide
  · rw [h.1]
    decide
